import Mathlib

/-!
CCL core: parameter derivation and cosmology object lifecycle.

A shallow embedding of `src/src/ccl_core.c`:

* `ccl_parameters_fill_initial`, `ccl_parameters_create` and the eight
  convenience constructors `ccl_parameters_create_*`;
* `ccl_cosmology_create`, `ccl_data_free`, `ccl_cosmology_free`.

Modelling conventions.

* A C `double` is a value of `Dbl`: a finite value (carried as a rational), an
  infinity with a sign, or the single not-a-number value. The special values
  follow IEEE 754. There is one zero, treated as positive zero when it is a
  divisor (the only divisor that can vanish in this program is `h*h`, which is
  never negative zero).
* Arithmetic on finite values rounds: an operation whose exact result is the
  rational `x` returns `FloatArith.round x`, which may be inexact and may be an
  infinity (overflow) or zero (underflow). The rounding is a parameter of
  every routine and every statement holds for every rounding, the one of
  binary64 included; what a statement needs of the rounding it assumes
  explicitly.
* A decimal literal of the C source is written as the rational it spells; its
  conversion to the nearest double is not modelled, and no statement depends
  on the value of a literal.
* A pointer is `Option Nat`: `none` is `NULL`, `some a` is the address of
  block `a`. The heap of double arrays is a list of blocks, a block a list of
  cells, a cell either indeterminate (`none`) or holding a double.
* A C function whose behaviour is undefined on some input returns `none`
  there.
* A local or heap object that the C code leaves indeterminate before
  assigning its fields is an explicit argument `u` holding arbitrary values.
* The neutrino module (`ccl_neutrinos.c`) and the headers declaring
  the record types are not among the sources; the two neutrino entry points
  are parameters (`ccl_neutrinos`), and the records have exactly the fields
  that `ccl_core.c` reads or writes.
-/

namespace CCL

/-! ## Doubles -/

/-- A C double: a finite value, an infinity with its sign, or not-a-number. -/
inductive Dbl where
  | fin (q : ℚ)
  | inf (neg : Bool)
  | nan
  deriving DecidableEq

/-- The rounding of the machine arithmetic: `round x` is the double an
operation returns when its exact result is the rational `x`. -/
class FloatArith where
  round : ℚ → Dbl

namespace Dbl

/-- The C classification `isfinite`. -/
def isfinite : Dbl → Bool
  | .fin _ => true
  | _ => false

/-- Unary minus (exact). -/
def neg : Dbl → Dbl
  | .fin a => .fin (-a)
  | .inf n => .inf (!n)
  | .nan => .nan

/-- Addition: the rounded sum of finite values; opposite infinities give
not-a-number. -/
def add [FloatArith] : Dbl → Dbl → Dbl
  | .fin a, .fin b => FloatArith.round (a + b)
  | .fin _, .inf n => .inf n
  | .inf n, .fin _ => .inf n
  | .inf n, .inf m => if n = m then .inf n else .nan
  | .nan, _ => .nan
  | _, .nan => .nan

/-- Subtraction, `a - b = a + (-b)`. -/
def sub [FloatArith] (a b : Dbl) : Dbl := add a (neg b)

/-- Multiplication: the rounded product of finite values; zero times infinity
gives not-a-number. -/
def mul [FloatArith] : Dbl → Dbl → Dbl
  | .fin a, .fin b => FloatArith.round (a * b)
  | .fin a, .inf n => if a = 0 then .nan else .inf (xor n (decide (a < 0)))
  | .inf n, .fin b => if b = 0 then .nan else .inf (xor n (decide (b < 0)))
  | .inf n, .inf m => .inf (xor n m)
  | .nan, _ => .nan
  | _, .nan => .nan

/-- Division: the rounded quotient of finite values; a nonzero finite value
over zero is an infinity, zero over zero and infinity over infinity are
not-a-number, finite over infinity is zero. -/
def div [FloatArith] : Dbl → Dbl → Dbl
  | .fin a, .fin b =>
      if b = 0 then (if a = 0 then .nan else .inf (decide (a < 0)))
      else FloatArith.round (a / b)
  | .fin _, .inf _ => .fin 0
  | .inf n, .fin b => .inf (xor n (decide (b < 0)))
  | .inf _, .inf _ => .nan
  | .nan, _ => .nan
  | _, .nan => .nan

/-- The C function `pow(x, y)` at an exponent `y` that is a natural number
(the program only calls it with `4.`): the rounded power of a finite value.
`pow(x, 0)` is 1 for every `x`. -/
def pow [FloatArith] (x : Dbl) (n : Nat) : Dbl :=
  if n = 0 then .fin 1 else
  match x with
  | .fin a => FloatArith.round (a ^ n)
  | .inf neg => .inf (neg && decide (n % 2 = 1))
  | .nan => .nan

instance : Neg Dbl := ⟨neg⟩
instance [FloatArith] : Add Dbl := ⟨add⟩
instance [FloatArith] : Sub Dbl := ⟨sub⟩
instance [FloatArith] : Mul Dbl := ⟨mul⟩
instance [FloatArith] : Div Dbl := ⟨div⟩

end Dbl

/-- The constant `NAN` of `math.h`. -/
def NAN : Dbl := .nan

/-- The constant `M_PI` of `math.h`. -/
def M_PI : Dbl := .fin 3.14159265358979323846

/-! ## Memory -/

/-- A pointer: `none` is `NULL`, `some a` the address of block `a`. -/
abbrev Ptr := Option Nat

/-- A heap cell of type double: indeterminate, or holding a value. -/
abbrev Cell := Option Dbl

/-- The heap of double arrays; the block at address `a` is entry `a`. -/
abbrev Heap := List (List Cell)

/-- The block a pointer points to, if any. -/
def load (H : Heap) (p : Ptr) : Option (List Cell) :=
  match p with
  | none => none
  | some a => H[a]?

/-- Whether `n` cells can be read (or written) through `p`. -/
def readable (H : Heap) (p : Ptr) (n : Nat) : Bool :=
  match load H p with
  | none => false
  | some b => decide (n ≤ b.length)

/-- The C function `malloc(n * sizeof(double))`: a new block of `n`
indeterminate cells at an address not in use. Allocation always succeeds. -/
def malloc (H : Heap) (n : Nat) : Ptr × Heap :=
  (some H.length, H ++ [List.replicate n none])

/-- The C function `memcpy(dst, src, n * sizeof(double))`. Undefined when a
pointer is null or dangling, when a block has fewer than `n` cells, or when
source and destination are the same block. -/
def memcpy (H : Heap) (dst src : Ptr) (n : Nat) : Option Heap :=
  match dst, src with
  | some d, some s =>
    match H[d]?, H[s]? with
    | some bd, some bs =>
      if n ≤ bd.length ∧ n ≤ bs.length ∧ d ≠ s then
        some (H.set d (bs.take n ++ bd.drop n))
      else none
    | _, _ => none
  | _, _ => none

/-! ## Parameters -/

/-- The two entry points of the neutrino module used by the core. -/
structure ccl_neutrinos where
  /-- The type of the phase-space spline. -/
  gsl_spline : Type
  /-- The spline returned by the call `ccl_calculate_nu_phasespace_spline()`. -/
  ccl_calculate_nu_phasespace_spline : gsl_spline
  /-- The function `Omeganuh2(a, Neff, mnu, TCMB, psi)`. -/
  Omeganuh2 : Dbl → Dbl → Dbl → Dbl → gsl_spline → Dbl

/-- The record `ccl_parameters`. -/
structure ccl_parameters where
  Omega_c : Dbl
  Omega_b : Dbl
  Omega_m : Dbl
  Omega_n : Dbl
  Omega_k : Dbl
  N_nu_mass : Dbl
  N_nu_rel : Dbl
  mnu : Dbl
  Omega_n_mass : Dbl
  Omega_n_rel : Dbl
  w0 : Dbl
  wa : Dbl
  H0 : Dbl
  h : Dbl
  A_s : Dbl
  n_s : Dbl
  Omega_g : Dbl
  T_CMB : Dbl
  sigma_8 : Dbl
  Omega_l : Dbl
  z_star : Dbl
  has_mgrowth : Bool
  nz_mgrowth : Int
  z_mgrowth : Ptr
  df_mgrowth : Ptr

/-- The routine `ccl_parameters_fill_initial` (ccl_core.c, lines 76-101). -/
def ccl_parameters_fill_initial [FloatArith] (nu : ccl_neutrinos) (params : ccl_parameters) :
    ccl_parameters :=
  let params := { params with T_CMB := Dbl.fin 2.7255 }
  let params := { params with
    Omega_g := M_PI * M_PI * Dbl.pow (params.T_CMB / Dbl.fin 11604.5) 4
                 / (Dbl.fin 15 * Dbl.fin 8.098e-11 * params.h * params.h) }
  let temp := nu.ccl_calculate_nu_phasespace_spline
  let params := { params with
    Omega_n_rel := nu.Omeganuh2 (Dbl.fin 1.0) params.N_nu_rel (Dbl.fin 0) params.T_CMB temp
                     / (params.h * params.h) }
  let params := { params with
    Omega_n_mass := nu.Omeganuh2 (Dbl.fin 1.0) params.N_nu_mass params.mnu params.T_CMB temp
                      / (params.h * params.h) }
  let params := { params with Omega_n := params.Omega_n_rel + params.Omega_n_mass }
  let params := { params with
    Omega_m := params.Omega_b + params.Omega_c + params.Omega_n_mass }
  let params := { params with
    Omega_l := Dbl.fin 1.0 - params.Omega_m - params.Omega_g - params.Omega_n_rel
                 - params.Omega_k }
  let params := if params.A_s.isfinite then { params with sigma_8 := NAN } else params
  let params := if params.sigma_8.isfinite then { params with A_s := NAN } else params
  { params with z_star := NAN }

/-- The routine `ccl_parameters_create` (ccl_core.c, lines 121-168). The
local `params` starts as the indeterminate record `u`; `H` is the heap at the
call. The result is the returned record and the heap after the call. -/
def ccl_parameters_create [FloatArith] (nu : ccl_neutrinos) (u : ccl_parameters) (H : Heap)
    (Omega_c Omega_b Omega_k N_nu_rel N_nu_mass mnu w0 wa h A_s n_s : Dbl)
    (nz_mgrowth : Int) (zarr_mgrowth dfarr_mgrowth : Ptr) :
    Option (ccl_parameters × Heap) :=
  let params := u
  let params := { params with sigma_8 := NAN }
  let params := { params with A_s := NAN }
  let params := { params with Omega_c := Omega_c }
  let params := { params with Omega_b := Omega_b }
  let params := { params with Omega_k := Omega_k }
  let params := { params with N_nu_mass := N_nu_mass }
  let params := { params with N_nu_rel := N_nu_rel }
  let params := { params with mnu := mnu }
  let params := { params with w0 := w0 }
  let params := { params with wa := wa }
  let params := { params with h := h }
  let params := { params with H0 := h * Dbl.fin 100 }
  let params := { params with A_s := A_s }
  let params := { params with n_s := n_s }
  let params := ccl_parameters_fill_initial nu params
  if nz_mgrowth > 0 then
    let params := { params with has_mgrowth := true }
    let params := { params with nz_mgrowth := nz_mgrowth }
    let (p, H) := malloc H params.nz_mgrowth.toNat
    let params := { params with z_mgrowth := p }
    let (p, H) := malloc H params.nz_mgrowth.toNat
    let params := { params with df_mgrowth := p }
    (memcpy H params.z_mgrowth zarr_mgrowth params.nz_mgrowth.toNat).bind fun H =>
    (memcpy H params.df_mgrowth dfarr_mgrowth params.nz_mgrowth.toNat).bind fun H =>
    some (params, H)
  else
    let params := { params with has_mgrowth := false }
    let params := { params with nz_mgrowth := 0 }
    let params := { params with z_mgrowth := none }
    let params := { params with df_mgrowth := none }
    some (params, H)

/-- Whether the call of `ccl_parameters_create` is defined: with a positive
count both arrays must be readable for that many cells. -/
def mgrowth_args_ok (H : Heap) (nz_mgrowth : Int) (zarr_mgrowth dfarr_mgrowth : Ptr) : Bool :=
  decide (nz_mgrowth ≤ 0) ||
    (readable H zarr_mgrowth nz_mgrowth.toNat && readable H dfarr_mgrowth nz_mgrowth.toNat)

/-- The routine `ccl_parameters_create_flat_lcdm` (lines 175-187). -/
def ccl_parameters_create_flat_lcdm [FloatArith] (nu : ccl_neutrinos) (u : ccl_parameters)
    (H : Heap)
    (Omega_c Omega_b h A_s n_s : Dbl) : Option (ccl_parameters × Heap) :=
  let Omega_k := Dbl.fin 0.0
  let N_nu_mass := Dbl.fin 0.0
  let N_nu_rel := Dbl.fin 0.0
  let mnu := Dbl.fin 0.0
  let w0 := -Dbl.fin 1.0
  let wa := Dbl.fin 0.0
  let params := ccl_parameters_create nu u H Omega_c Omega_b Omega_k N_nu_rel N_nu_mass mnu
    w0 wa h A_s n_s (-1) none none
  params

/-- The routine `ccl_parameters_create_flat_lcdm_nu` (lines 194-203). -/
def ccl_parameters_create_flat_lcdm_nu [FloatArith] (nu : ccl_neutrinos) (u : ccl_parameters)
    (H : Heap)
    (Omega_c Omega_b h A_s n_s N_nu_rel N_nu_mass mnu : Dbl) :
    Option (ccl_parameters × Heap) :=
  let Omega_k := Dbl.fin 0.0
  let w0 := -Dbl.fin 1.0
  let wa := Dbl.fin 0.0
  let params := ccl_parameters_create nu u H Omega_c Omega_b Omega_k N_nu_rel N_nu_mass mnu
    w0 wa h A_s n_s (-1) none none
  params

/-- The routine `ccl_parameters_create_lcdm` (lines 212-223). -/
def ccl_parameters_create_lcdm [FloatArith] (nu : ccl_neutrinos) (u : ccl_parameters) (H : Heap)
    (Omega_c Omega_b Omega_k h A_s n_s : Dbl) : Option (ccl_parameters × Heap) :=
  let N_nu_mass := Dbl.fin 0.0
  let N_nu_rel := Dbl.fin 0.0
  let mnu := Dbl.fin 0.0
  let w0 := -Dbl.fin 1.0
  let wa := Dbl.fin 0.0
  let params := ccl_parameters_create nu u H Omega_c Omega_b Omega_k N_nu_rel N_nu_mass mnu
    w0 wa h A_s n_s (-1) none none
  params

/-- The routine `ccl_parameters_create_lcdm_nu` (lines 230-238). -/
def ccl_parameters_create_lcdm_nu [FloatArith] (nu : ccl_neutrinos) (u : ccl_parameters) (H : Heap)
    (Omega_c Omega_b Omega_k h A_s n_s N_nu_rel N_nu_mass mnu : Dbl) :
    Option (ccl_parameters × Heap) :=
  let w0 := -Dbl.fin 1.0
  let wa := Dbl.fin 0.0
  let params := ccl_parameters_create nu u H Omega_c Omega_b Omega_k N_nu_rel N_nu_mass mnu
    w0 wa h A_s n_s (-1) none none
  params

/-- The routine `ccl_parameters_create_flat_wcdm` (lines 247-258). -/
def ccl_parameters_create_flat_wcdm [FloatArith] (nu : ccl_neutrinos) (u : ccl_parameters)
    (H : Heap)
    (Omega_c Omega_b w0 h A_s n_s : Dbl) : Option (ccl_parameters × Heap) :=
  let Omega_k := Dbl.fin 0.0
  let N_nu_mass := Dbl.fin 0.0
  let N_nu_rel := Dbl.fin 0.0
  let mnu := Dbl.fin 0.0
  let wa := Dbl.fin 0.0
  let params := ccl_parameters_create nu u H Omega_c Omega_b Omega_k N_nu_rel N_nu_mass mnu
    w0 wa h A_s n_s (-1) none none
  params

/-- The routine `ccl_parameters_create_flat_wcdm_nu` (lines 266-274). -/
def ccl_parameters_create_flat_wcdm_nu [FloatArith] (nu : ccl_neutrinos) (u : ccl_parameters)
    (H : Heap)
    (Omega_c Omega_b w0 h A_s n_s N_nu_rel N_nu_mass mnu : Dbl) :
    Option (ccl_parameters × Heap) :=
  let Omega_k := Dbl.fin 0.0
  let wa := Dbl.fin 0.0
  let params := ccl_parameters_create nu u H Omega_c Omega_b Omega_k N_nu_rel N_nu_mass mnu
    w0 wa h A_s n_s (-1) none none
  params

/-- The routine `ccl_parameters_create_flat_wacdm` (lines 282-292). -/
def ccl_parameters_create_flat_wacdm [FloatArith] (nu : ccl_neutrinos) (u : ccl_parameters)
    (H : Heap)
    (Omega_c Omega_b w0 wa h A_s n_s : Dbl) : Option (ccl_parameters × Heap) :=
  let Omega_k := Dbl.fin 0.0
  let N_nu_mass := Dbl.fin 0.0
  let N_nu_rel := Dbl.fin 0.0
  let mnu := Dbl.fin 0.0
  let params := ccl_parameters_create nu u H Omega_c Omega_b Omega_k N_nu_rel N_nu_mass mnu
    w0 wa h A_s n_s (-1) none none
  params

/-- The routine `ccl_parameters_create_flat_wacdm_nu` (lines 299-306). -/
def ccl_parameters_create_flat_wacdm_nu [FloatArith] (nu : ccl_neutrinos) (u : ccl_parameters)
    (H : Heap)
    (Omega_c Omega_b w0 wa h A_s n_s N_nu_rel N_nu_mass mnu : Dbl) :
    Option (ccl_parameters × Heap) :=
  let Omega_k := Dbl.fin 0.0
  let params := ccl_parameters_create nu u H Omega_c Omega_b Omega_k N_nu_rel N_nu_mass mnu
    w0 wa h A_s n_s (-1) none none
  params

/-! ## The cosmology object -/

/-- The record `ccl_data`: the cache of a cosmology. Every slot but `growth0`
is a pointer to a GSL object (spline or interpolation accelerator). -/
structure ccl_data where
  chi : Ptr
  growth : Ptr
  fgrowth : Ptr
  E : Ptr
  accelerator : Ptr
  accelerator_achi : Ptr
  accelerator_m : Ptr
  growth0 : Dbl
  achi : Ptr
  logsigma : Ptr
  p_lin : Ptr
  p_nl : Ptr
  nu_pspace_int : Ptr

/-- The record `ccl_cosmology`; the configuration type is a parameter. -/
structure ccl_cosmology (ccl_configuration : Type) where
  params : ccl_parameters
  config : ccl_configuration
  data : ccl_data
  computed_distances : Bool
  computed_growth : Bool
  computed_power : Bool
  computed_sigma : Bool
  status : Int

/-- The routine `ccl_cosmology_create` (lines 35-62). The object obtained
from `malloc` starts as the indeterminate record `u`; the result is the object
the returned pointer points to. -/
def ccl_cosmology_create {ccl_configuration : Type} (u : ccl_cosmology ccl_configuration)
    (params : ccl_parameters) (config : ccl_configuration) : ccl_cosmology ccl_configuration :=
  let cosmo : ccl_cosmology ccl_configuration := u
  let cosmo : ccl_cosmology ccl_configuration := { cosmo with params := params }
  let cosmo : ccl_cosmology ccl_configuration := { cosmo with config := config }
  let cosmo : ccl_cosmology ccl_configuration := { cosmo with data.chi := none }
  let cosmo : ccl_cosmology ccl_configuration := { cosmo with data.growth := none }
  let cosmo : ccl_cosmology ccl_configuration := { cosmo with data.fgrowth := none }
  let cosmo : ccl_cosmology ccl_configuration := { cosmo with data.E := none }
  let cosmo : ccl_cosmology ccl_configuration := { cosmo with data.accelerator := none }
  let cosmo : ccl_cosmology ccl_configuration := { cosmo with data.accelerator_achi := none }
  let cosmo : ccl_cosmology ccl_configuration := { cosmo with data.accelerator_m := none }
  let cosmo : ccl_cosmology ccl_configuration := { cosmo with data.growth0 := Dbl.fin 1 }
  let cosmo : ccl_cosmology ccl_configuration := { cosmo with data.achi := none }
  let cosmo : ccl_cosmology ccl_configuration := { cosmo with data.logsigma := none }
  let cosmo : ccl_cosmology ccl_configuration := { cosmo with data.p_lin := none }
  let cosmo : ccl_cosmology ccl_configuration := { cosmo with data.p_nl := none }
  let cosmo : ccl_cosmology ccl_configuration := { cosmo with data.nu_pspace_int := none }
  let cosmo : ccl_cosmology ccl_configuration := { cosmo with computed_distances := false }
  let cosmo : ccl_cosmology ccl_configuration := { cosmo with computed_growth := false }
  let cosmo : ccl_cosmology ccl_configuration := { cosmo with computed_power := false }
  let cosmo : ccl_cosmology ccl_configuration := { cosmo with computed_sigma := false }
  let cosmo : ccl_cosmology ccl_configuration := { cosmo with status := 0 }
  cosmo

/-- A call of a deallocation function, with its argument. -/
inductive FreeCall where
  | gsl_spline_free (p : Ptr)
  | gsl_interp_accel_free (p : Ptr)
  | gsl_spline2d_free (p : Ptr)
  | free (p : Ptr)
  deriving DecidableEq

/-- The pointer a deallocation call is applied to. -/
def FreeCall.arg : FreeCall → Ptr
  | .gsl_spline_free p => p
  | .gsl_interp_accel_free p => p
  | .gsl_spline2d_free p => p
  | .free p => p

/-- Whether the call is the C function `free` itself. -/
def FreeCall.isFree : FreeCall → Bool
  | .free _ => true
  | _ => false

/-- The routine `ccl_data_free` (lines 315-341), as the sequence of
deallocation calls it makes, in order. -/
def ccl_data_free (data : ccl_data) : List FreeCall :=
  (if data.chi ≠ none then [FreeCall.gsl_spline_free data.chi] else []) ++
  (if data.growth ≠ none then [FreeCall.gsl_spline_free data.growth] else []) ++
  (if data.fgrowth ≠ none then [FreeCall.gsl_spline_free data.fgrowth] else []) ++
  (if data.accelerator ≠ none then [FreeCall.gsl_interp_accel_free data.accelerator] else []) ++
  (if data.accelerator_achi ≠ none then
    [FreeCall.gsl_interp_accel_free data.accelerator_achi] else []) ++
  (if data.E ≠ none then [FreeCall.gsl_spline_free data.E] else []) ++
  (if data.achi ≠ none then [FreeCall.gsl_spline_free data.achi] else []) ++
  (if data.logsigma ≠ none then [FreeCall.gsl_spline_free data.logsigma] else []) ++
  (if data.p_lin ≠ none then [FreeCall.gsl_spline_free data.p_lin] else []) ++
  (if data.p_nl ≠ none then [FreeCall.gsl_spline2d_free data.p_nl] else [])

/-- The routine `ccl_cosmology_free` (lines 349-353), as the sequence of
deallocation calls it makes: `cosmo` is the address of the object, `obj` the
object stored there. -/
def ccl_cosmology_free {ccl_configuration : Type} (cosmo : Nat)
    (obj : ccl_cosmology ccl_configuration) : List FreeCall :=
  ccl_data_free obj.data ++ [FreeCall.free (some cosmo)]

/-- The twelve pointer slots of the cache. -/
def ccl_data.slots (d : ccl_data) : List Ptr :=
  [d.chi, d.growth, d.fgrowth, d.accelerator, d.accelerator_achi, d.E, d.achi, d.logsigma,
   d.p_lin, d.p_nl, d.accelerator_m, d.nu_pspace_int]

/-- The handles held by the cache: the addresses in its non-null slots. -/
def ccl_data.handles (d : ccl_data) : List Nat :=
  d.slots.reduceOption

/-- The four computed flags of a cosmology. -/
def ccl_cosmology.flags {ccl_configuration : Type} (c : ccl_cosmology ccl_configuration) :
    List Bool :=
  [c.computed_distances, c.computed_growth, c.computed_power, c.computed_sigma]

/-- Whether exactly one of the two normalization fields is finite. -/
def exactly_one_finite (p : ccl_parameters) : Bool :=
  xor p.A_s.isfinite p.sigma_8.isfinite

/-! ## Sample inputs -/

/-- A stand-in arithmetic: every operation returns its exact result enlarged
by the relative error `2^-53`, the largest that binary64 commits. -/
def sample_arith : FloatArith where
  round := fun x => Dbl.fin (x * (1 + 1 / 2 ^ 53))

/-- A stand-in neutrino module: the density is `Neff` times a constant. -/
def sample_nu [FloatArith] : ccl_neutrinos where
  gsl_spline := Unit
  ccl_calculate_nu_phasespace_spline := ()
  Omeganuh2 := fun _ Neff _ _ _ => Neff * Dbl.fin 0.001

/-- A sample of indeterminate contents for a parameter record. -/
def sample_params : ccl_parameters where
  Omega_c := Dbl.fin 7
  Omega_b := Dbl.nan
  Omega_m := Dbl.fin 7
  Omega_n := Dbl.inf true
  Omega_k := Dbl.fin 7
  N_nu_mass := Dbl.fin 7
  N_nu_rel := Dbl.fin 7
  mnu := Dbl.fin 7
  Omega_n_mass := Dbl.fin 7
  Omega_n_rel := Dbl.fin 7
  w0 := Dbl.fin 7
  wa := Dbl.fin 7
  H0 := Dbl.fin 7
  h := Dbl.fin 7
  A_s := Dbl.fin 7
  n_s := Dbl.fin 7
  Omega_g := Dbl.fin 7
  T_CMB := Dbl.fin 7
  sigma_8 := Dbl.fin 7
  Omega_l := Dbl.fin 7
  z_star := Dbl.fin 7
  has_mgrowth := true
  nz_mgrowth := 7
  z_mgrowth := some 7
  df_mgrowth := none

/-- A sample heap holding two caller arrays of three cells each. -/
def sample_heap : Heap :=
  [[some (Dbl.fin 0), some (Dbl.fin 0.5), some (Dbl.fin 1)],
   [some (Dbl.fin 0.1), some (Dbl.fin 0.2), none]]

/-- A sample of indeterminate contents for a cosmology object. -/
def sample_cosmology : ccl_cosmology Unit where
  params := sample_params
  config := ()
  data :=
    { chi := some 90, growth := none, fgrowth := some 91, E := none, accelerator := some 92,
      accelerator_achi := none, accelerator_m := some 93, growth0 := Dbl.nan, achi := none,
      logsigma := some 94, p_lin := none, p_nl := some 95, nu_pspace_int := some 96 }
  computed_distances := true
  computed_growth := false
  computed_power := true
  computed_sigma := true
  status := 3

/-- A cosmology whose distance, growth and power caches are populated. -/
def sample_populated : ccl_cosmology Unit :=
  { ccl_cosmology_create sample_cosmology sample_params () with
    data :=
      { chi := some 10, growth := some 11, fgrowth := some 12, E := some 13,
        accelerator := some 14, accelerator_achi := some 15, accelerator_m := none,
        growth0 := Dbl.fin 1, achi := some 16, logsigma := none, p_lin := some 17,
        p_nl := some 18, nu_pspace_int := none }
    computed_distances := true
    computed_growth := true
    computed_power := true }

/-- A freshly created cosmology in which only the two slots `accelerator_m`
and `nu_pspace_int` have been populated. -/
def sample_leaky : ccl_cosmology Unit :=
  let cosmo := ccl_cosmology_create sample_cosmology sample_params ()
  { cosmo with data := { cosmo.data with accelerator_m := some 7, nu_pspace_int := some 8 } }

/-! ## Doubles: basic facts -/

theorem Dbl.add_def [FloatArith] (a b : Dbl) : a + b = Dbl.add a b := rfl
theorem Dbl.sub_def [FloatArith] (a b : Dbl) : a - b = Dbl.add a (Dbl.neg b) := rfl
theorem Dbl.mul_def [FloatArith] (a b : Dbl) : a * b = Dbl.mul a b := rfl
theorem Dbl.div_def [FloatArith] (a b : Dbl) : a / b = Dbl.div a b := rfl
@[simp] theorem Dbl.isfinite_nan : Dbl.isfinite Dbl.nan = false := rfl
@[simp] theorem Dbl.isfinite_inf (n : Bool) : Dbl.isfinite (Dbl.inf n) = false := rfl
@[simp] theorem Dbl.isfinite_fin (q : ℚ) : Dbl.isfinite (Dbl.fin q) = true := rfl

theorem Dbl.isfinite_iff (a : Dbl) : a.isfinite = true ↔ ∃ q, a = Dbl.fin q := by
  cases a <;> simp

/-- A finite sum has finite summands and is the rounding of their exact sum. -/
theorem add_eq_fin [FloatArith] (a b : Dbl) (s : ℚ) (h : a + b = Dbl.fin s) :
    ∃ x y, a = Dbl.fin x ∧ b = Dbl.fin y ∧ FloatArith.round (x + y) = Dbl.fin s := by
  cases a with
  | fin x =>
    cases b with
    | fin y => exact ⟨x, y, rfl, rfl, h⟩
    | inf m => exact Dbl.noConfusion h
    | nan => exact Dbl.noConfusion h
  | inf n =>
    cases b with
    | fin y => exact Dbl.noConfusion h
    | inf m =>
      simp only [Dbl.add_def, Dbl.add] at h
      split_ifs at h
    | nan => exact Dbl.noConfusion h
  | nan =>
    cases b with
    | fin y => exact Dbl.noConfusion h
    | inf m => exact Dbl.noConfusion h
    | nan => exact Dbl.noConfusion h

/-- A finite difference has finite operands and is the rounding of their exact
difference. -/
theorem sub_eq_fin [FloatArith] (a b : Dbl) (s : ℚ) (h : a - b = Dbl.fin s) :
    ∃ x y, a = Dbl.fin x ∧ b = Dbl.fin y ∧ FloatArith.round (x - y) = Dbl.fin s := by
  have h' : a + Dbl.neg b = Dbl.fin s := h
  obtain ⟨x, z, hx, hz, hr⟩ := add_eq_fin a (Dbl.neg b) s h'
  cases b with
  | fin y =>
    simp only [Dbl.neg, Dbl.fin.injEq] at hz
    refine ⟨x, y, hx, rfl, ?_⟩
    rw [← hr, ← hz, sub_eq_add_neg]
  | inf n => simp [Dbl.neg] at hz
  | nan => simp [Dbl.neg] at hz

theorem dbl_mul_comm [FloatArith] (a b : Dbl) : a * b = b * a := by
  cases a <;> cases b <;> simp [Dbl.mul_def, Dbl.mul, mul_comm, Bool.xor_comm]

theorem Dbl.one_lit : Dbl.fin 1.0 = Dbl.fin 1 := by norm_num

/-! ## Accumulated rounding error of the closure sum -/

/-- One rounded operation: with `|x| ≤ P`, the error is at most `eps * P + eta`
and the result at most `101/100 * P + eta`. -/
theorem round_step (x y eps eta P : ℚ) (h : |y - x| ≤ eps * |x| + eta) (hx : |x| ≤ P)
    (he0 : 0 ≤ eps) (he : eps ≤ 1 / 100) :
    |y - x| ≤ eps * P + eta ∧ |y| ≤ 101 / 100 * P + eta := by
  have h1 : eps * |x| ≤ eps * P := mul_le_mul_of_nonneg_left hx he0
  have hP : 0 ≤ P := le_trans (abs_nonneg x) hx
  have h2 : eps * P ≤ 1 / 100 * P := mul_le_mul_of_nonneg_right he hP
  have h3 : |y| ≤ |x| + |y - x| := by
    have := abs_add x (y - x)
    simpa using this
  constructor
  · linarith
  · linarith

/-- The eight rounded operations of the closure term and of the closure sum:
`a1 .. l` are the partial results of `1 - m - g - n - k`, `s1 .. s` those of
`m + g + n + k + l`. -/
theorem closure_error (eps eta m g n k a1 a2 a3 l s1 s2 s3 s : ℚ)
    (he0 : 0 ≤ eps) (he : eps ≤ 1 / 100) (hη : 0 ≤ eta)
    (h1 : |a1 - (1 - m)| ≤ eps * |1 - m| + eta)
    (h2 : |a2 - (a1 - g)| ≤ eps * |a1 - g| + eta)
    (h3 : |a3 - (a2 - n)| ≤ eps * |a2 - n| + eta)
    (h4 : |l - (a3 - k)| ≤ eps * |a3 - k| + eta)
    (h5 : |s1 - (m + g)| ≤ eps * |m + g| + eta)
    (h6 : |s2 - (s1 + n)| ≤ eps * |s1 + n| + eta)
    (h7 : |s3 - (s2 + k)| ≤ eps * |s2 + k| + eta)
    (h8 : |s - (s3 + l)| ≤ eps * |s3 + l| + eta) :
    |s - 1| ≤ 10 * eps * (1 + |m| + |g| + |n| + |k|) + 9 * eta := by
  have hm := abs_nonneg m
  have hg := abs_nonneg g
  have hn := abs_nonneg n
  have hk := abs_nonneg k
  have x1 : |1 - m| ≤ 1 + |m| := by simpa using (abs_sub (1 : ℚ) m)
  obtain ⟨e1, b1⟩ := round_step _ _ _ _ _ h1 x1 he0 he
  have x2 : |a1 - g| ≤ 101 / 100 * (1 + |m|) + eta + |g| := le_trans (abs_sub _ _) (by linarith)
  obtain ⟨e2, b2⟩ := round_step _ _ _ _ _ h2 x2 he0 he
  have x3 : |a2 - n| ≤ 101 / 100 * (101 / 100 * (1 + |m|) + eta + |g|) + eta + |n| :=
    le_trans (abs_sub _ _) (by linarith)
  obtain ⟨e3, b3⟩ := round_step _ _ _ _ _ h3 x3 he0 he
  have x4 : |a3 - k| ≤
      101 / 100 * (101 / 100 * (101 / 100 * (1 + |m|) + eta + |g|) + eta + |n|) + eta + |k| :=
    le_trans (abs_sub _ _) (by linarith)
  obtain ⟨e4, b4⟩ := round_step _ _ _ _ _ h4 x4 he0 he
  have y1 : |m + g| ≤ |m| + |g| := abs_add _ _
  obtain ⟨e5, c1⟩ := round_step _ _ _ _ _ h5 y1 he0 he
  have y2 : |s1 + n| ≤ 101 / 100 * (|m| + |g|) + eta + |n| :=
    le_trans (abs_add _ _) (by linarith)
  obtain ⟨e6, c2⟩ := round_step _ _ _ _ _ h6 y2 he0 he
  have y3 : |s2 + k| ≤ 101 / 100 * (101 / 100 * (|m| + |g|) + eta + |n|) + eta + |k| :=
    le_trans (abs_add _ _) (by linarith)
  obtain ⟨e7, c3⟩ := round_step _ _ _ _ _ h7 y3 he0 he
  have y4 : |s3 + l| ≤
      (101 / 100 * (101 / 100 * (101 / 100 * (|m| + |g|) + eta + |n|) + eta + |k|) + eta) +
      (101 / 100 * (101 / 100 * (101 / 100 * (101 / 100 * (1 + |m|) + eta + |g|) + eta + |n|)
        + eta + |k|) + eta) :=
    le_trans (abs_add _ _) (by linarith)
  obtain ⟨e8, -⟩ := round_step _ _ _ _ _ h8 y4 he0 he
  have tele : s - 1 = (s - (s3 + l)) + (s3 - (s2 + k)) + (s2 - (s1 + n)) + (s1 - (m + g)) +
      (l - (a3 - k)) + (a3 - (a2 - n)) + (a2 - (a1 - g)) + (a1 - (1 - m)) := by ring
  have tri : |s - 1| ≤ |s - (s3 + l)| + |s3 - (s2 + k)| + |s2 - (s1 + n)| + |s1 - (m + g)| +
      |l - (a3 - k)| + |a3 - (a2 - n)| + |a2 - (a1 - g)| + |a1 - (1 - m)| := by
    rw [tele]
    refine le_trans (abs_add _ _) (add_le_add_right ?_ _)
    refine le_trans (abs_add _ _) (add_le_add_right ?_ _)
    refine le_trans (abs_add _ _) (add_le_add_right ?_ _)
    refine le_trans (abs_add _ _) (add_le_add_right ?_ _)
    refine le_trans (abs_add _ _) (add_le_add_right ?_ _)
    refine le_trans (abs_add _ _) (add_le_add_right ?_ _)
    exact abs_add _ _
  have pm : 0 ≤ eps * |m| := mul_nonneg he0 hm
  have pg : 0 ≤ eps * |g| := mul_nonneg he0 hg
  have pn : 0 ≤ eps * |n| := mul_nonneg he0 hn
  have pk : 0 ≤ eps * |k| := mul_nonneg he0 hk
  have pe : eps * eta ≤ 1 / 100 * eta := mul_le_mul_of_nonneg_right he hη
  have pe0 : 0 ≤ eps * eta := mul_nonneg he0 hη
  linarith

/-- The closure sum over its own closure term: when finite, the four terms are
finite and the sum is within the accumulated rounding error of 1. -/
theorem closure_sum_finite [FloatArith] (M G N K : Dbl) (s : ℚ)
    (hs : M + G + N + K + (Dbl.fin 1 - M - G - N - K) = Dbl.fin s) :
    ∃ m g n k, M = Dbl.fin m ∧ G = Dbl.fin g ∧ N = Dbl.fin n ∧ K = Dbl.fin k ∧
      ∀ eps eta : ℚ,
        (∀ x y, FloatArith.round x = Dbl.fin y → |y - x| ≤ eps * |x| + eta) →
        0 ≤ eps → eps ≤ 1 / 100 → 0 ≤ eta →
        |s - 1| ≤ 10 * eps * (1 + |m| + |g| + |n| + |k|) + 9 * eta := by
  obtain ⟨s3, l, h3, hL, r8⟩ := add_eq_fin _ _ _ hs
  obtain ⟨s2, k, h2, rfl, r7⟩ := add_eq_fin _ _ _ h3
  obtain ⟨s1, n, h1, rfl, r6⟩ := add_eq_fin _ _ _ h2
  obtain ⟨m, g, rfl, rfl, r5⟩ := add_eq_fin _ _ _ h1
  obtain ⟨a3, k', hA3, hk, r4⟩ := sub_eq_fin _ _ _ hL
  obtain ⟨a2, n', hA2, hn, r3⟩ := sub_eq_fin _ _ _ hA3
  obtain ⟨a1, g', hA1, hg, r2⟩ := sub_eq_fin _ _ _ hA2
  obtain ⟨o, m', ho, hm, r1⟩ := sub_eq_fin _ _ _ hA1
  simp only [Dbl.fin.injEq] at hk hn hg hm ho
  subst hk hn hg hm ho
  refine ⟨m, g, n, k, rfl, rfl, rfl, rfl, fun eps eta law he0 he hη => ?_⟩
  exact closure_error eps eta m g n k a1 a2 a3 l s1 s2 s3 s he0 he hη
    (law _ _ r1) (law _ _ r2) (law _ _ r3) (law _ _ r4)
    (law _ _ r5) (law _ _ r6) (law _ _ r7) (law _ _ r8)

/-! ## The derivation routine in closed form -/

theorem fill_initial_eq [FloatArith] (nu : ccl_neutrinos) (p : ccl_parameters) :
    ccl_parameters_fill_initial nu p =
      { p with
        T_CMB := Dbl.fin 2.7255
        Omega_g := M_PI * M_PI * Dbl.pow (Dbl.fin 2.7255 / Dbl.fin 11604.5) 4
                 / (Dbl.fin 15 * Dbl.fin 8.098e-11 * p.h * p.h)
        Omega_n_rel := nu.Omeganuh2 (Dbl.fin 1.0) p.N_nu_rel (Dbl.fin 0) (Dbl.fin 2.7255)
            nu.ccl_calculate_nu_phasespace_spline / (p.h * p.h)
        Omega_n_mass := nu.Omeganuh2 (Dbl.fin 1.0) p.N_nu_mass p.mnu (Dbl.fin 2.7255)
            nu.ccl_calculate_nu_phasespace_spline / (p.h * p.h)
        Omega_n := nu.Omeganuh2 (Dbl.fin 1.0) p.N_nu_rel (Dbl.fin 0) (Dbl.fin 2.7255)
            nu.ccl_calculate_nu_phasespace_spline / (p.h * p.h) +
          nu.Omeganuh2 (Dbl.fin 1.0) p.N_nu_mass p.mnu (Dbl.fin 2.7255)
            nu.ccl_calculate_nu_phasespace_spline / (p.h * p.h)
        Omega_m := p.Omega_b + p.Omega_c +
          nu.Omeganuh2 (Dbl.fin 1.0) p.N_nu_mass p.mnu (Dbl.fin 2.7255)
            nu.ccl_calculate_nu_phasespace_spline / (p.h * p.h)
        Omega_l := Dbl.fin 1.0 -
          (p.Omega_b + p.Omega_c +
            nu.Omeganuh2 (Dbl.fin 1.0) p.N_nu_mass p.mnu (Dbl.fin 2.7255)
              nu.ccl_calculate_nu_phasespace_spline / (p.h * p.h)) -
          M_PI * M_PI * Dbl.pow (Dbl.fin 2.7255 / Dbl.fin 11604.5) 4
                 / (Dbl.fin 15 * Dbl.fin 8.098e-11 * p.h * p.h) -
          nu.Omeganuh2 (Dbl.fin 1.0) p.N_nu_rel (Dbl.fin 0) (Dbl.fin 2.7255)
            nu.ccl_calculate_nu_phasespace_spline / (p.h * p.h) - p.Omega_k
        sigma_8 := if p.A_s.isfinite then Dbl.nan else p.sigma_8
        A_s := if p.A_s.isfinite then p.A_s else if p.sigma_8.isfinite then Dbl.nan else p.A_s
        z_star := Dbl.nan } := by
  unfold ccl_parameters_fill_initial
  cases hA : p.A_s.isfinite <;> cases hS : p.sigma_8.isfinite <;> simp [hA, hS, NAN]

attribute [irreducible] ccl_parameters_fill_initial

theorem create_scalars [FloatArith] (nu : ccl_neutrinos) (u : ccl_parameters) (H H' : Heap)
    (Omega_c Omega_b Omega_k N_nu_rel N_nu_mass mnu w0 wa h A_s n_s : Dbl)
    (nz : Int) (zarr dfarr : Ptr) (r : ccl_parameters)
    (hr : ccl_parameters_create nu u H Omega_c Omega_b Omega_k N_nu_rel N_nu_mass mnu w0 wa h
        A_s n_s nz zarr dfarr = some (r, H')) :
    r.Omega_c = Omega_c ∧ r.Omega_b = Omega_b ∧ r.Omega_k = Omega_k ∧
    r.N_nu_rel = N_nu_rel ∧ r.N_nu_mass = N_nu_mass ∧ r.mnu = mnu ∧
    r.w0 = w0 ∧ r.wa = wa ∧ r.h = h ∧ r.n_s = n_s ∧
    r.H0 = h * Dbl.fin 100 ∧ r.T_CMB = Dbl.fin 2.7255 ∧
    r.A_s = A_s ∧ r.sigma_8 = Dbl.nan ∧ r.z_star = Dbl.nan ∧
    r.Omega_g = M_PI * M_PI * Dbl.pow (Dbl.fin 2.7255 / Dbl.fin 11604.5) 4
                 / (Dbl.fin 15 * Dbl.fin 8.098e-11 * h * h) ∧
    r.Omega_n_rel = nu.Omeganuh2 (Dbl.fin 1.0) N_nu_rel (Dbl.fin 0) (Dbl.fin 2.7255)
            nu.ccl_calculate_nu_phasespace_spline / (h * h) ∧
    r.Omega_n_mass = nu.Omeganuh2 (Dbl.fin 1.0) N_nu_mass mnu (Dbl.fin 2.7255)
            nu.ccl_calculate_nu_phasespace_spline / (h * h) ∧
    r.Omega_n = r.Omega_n_rel + r.Omega_n_mass ∧
    r.Omega_m = r.Omega_b + r.Omega_c + r.Omega_n_mass ∧
    r.Omega_l = Dbl.fin 1.0 - r.Omega_m - r.Omega_g - r.Omega_n_rel - r.Omega_k := by
  unfold ccl_parameters_create at hr
  split at hr
  · simp only [malloc, Option.bind_eq_some] at hr
    obtain ⟨H1, -, H2, -, hr⟩ := hr
    simp only [Option.some.injEq, Prod.mk.injEq] at hr
    obtain ⟨rfl, -⟩ := hr
    simp [fill_initial_eq, NAN]
  · simp only [Option.some.injEq, Prod.mk.injEq] at hr
    obtain ⟨rfl, -⟩ := hr
    simp [fill_initial_eq, NAN]

theorem memcpy_some (G : Heap) (d s n : Nat) (bd bs : List Cell)
    (hd : G[d]? = some bd) (hs : G[s]? = some bs) (hnd : n ≤ bd.length) (hns : n ≤ bs.length)
    (hne : d ≠ s) :
    memcpy G (some d) (some s) n = some (G.set d (bs.take n ++ bd.drop n)) := by
  simp [memcpy, hd, hs, hnd, hns, hne]

theorem create_pos [FloatArith] (nu : ccl_neutrinos) (u : ccl_parameters) (H : Heap)
    (Omega_c Omega_b Omega_k N_nu_rel N_nu_mass mnu w0 wa h A_s n_s : Dbl)
    (nz : Int) (a b : Nat) (zs ds : List Cell) (hnz : 0 < nz)
    (hz : H[a]? = some zs) (hd : H[b]? = some ds)
    (hzl : nz.toNat ≤ zs.length) (hdl : nz.toNat ≤ ds.length) :
    ∃ r, ccl_parameters_create nu u H Omega_c Omega_b Omega_k N_nu_rel N_nu_mass mnu w0 wa h
        A_s n_s nz (some a) (some b) =
          some (r, H ++ [zs.take nz.toNat, ds.take nz.toNat]) ∧
      r.has_mgrowth = true ∧ r.nz_mgrowth = nz ∧
      r.z_mgrowth = some H.length ∧ r.df_mgrowth = some (H.length + 1) := by
  have ha : a < H.length := (List.getElem?_eq_some.1 hz).1
  have hb : b < H.length := (List.getElem?_eq_some.1 hd).1
  have h1 : memcpy (H ++ [List.replicate nz.toNat none, List.replicate nz.toNat none])
      (some H.length) (some a) nz.toNat =
      some (H ++ [zs.take nz.toNat, List.replicate nz.toNat none]) := by
    rw [memcpy_some _ _ _ _ (List.replicate nz.toNat none) zs]
    · simp [List.set_append]
    · rw [List.getElem?_append_right (le_refl _)]; simp
    · rw [List.getElem?_append_left ha]; exact hz
    · simp
    · exact hzl
    · omega
  have h2 : memcpy (H ++ [zs.take nz.toNat, List.replicate nz.toNat none])
      (some (H.length + 1)) (some b) nz.toNat =
      some (H ++ [zs.take nz.toNat, ds.take nz.toNat]) := by
    rw [memcpy_some _ _ _ _ (List.replicate nz.toNat none) ds]
    · simp [List.set_append]
    · rw [List.getElem?_append_right (by omega)]; simp
    · rw [List.getElem?_append_left hb]; exact hd
    · simp
    · exact hdl
    · omega
  unfold ccl_parameters_create
  rw [if_pos hnz]
  simp [malloc, h1, h2]

theorem create_nonpos [FloatArith] (nu : ccl_neutrinos) (u : ccl_parameters) (H : Heap)
    (Omega_c Omega_b Omega_k N_nu_rel N_nu_mass mnu w0 wa h A_s n_s : Dbl)
    (nz : Int) (zarr dfarr : Ptr) (hnz : nz ≤ 0) :
    ∃ r, ccl_parameters_create nu u H Omega_c Omega_b Omega_k N_nu_rel N_nu_mass mnu w0 wa h
        A_s n_s nz zarr dfarr = some (r, H) ∧
      r.has_mgrowth = false ∧ r.nz_mgrowth = 0 ∧ r.z_mgrowth = none ∧ r.df_mgrowth = none := by
  have h0 : ¬ nz > 0 := by omega
  simp [ccl_parameters_create, h0]

theorem readable_iff (H : Heap) (p : Ptr) (n : Nat) :
    readable H p n = true ↔ ∃ a b, p = some a ∧ H[a]? = some b ∧ n ≤ b.length := by
  cases p with
  | none => simp [readable, load]
  | some a =>
    cases hb : H[a]? with
    | none => simp [readable, load, hb]
    | some b => simp [readable, load, hb]

theorem create_returns [FloatArith] (nu : ccl_neutrinos) (u : ccl_parameters) (H : Heap)
    (Omega_c Omega_b Omega_k N_nu_rel N_nu_mass mnu w0 wa h A_s n_s : Dbl)
    (nz : Int) (zarr dfarr : Ptr) (hok : mgrowth_args_ok H nz zarr dfarr = true) :
    ∃ r H', ccl_parameters_create nu u H Omega_c Omega_b Omega_k N_nu_rel N_nu_mass mnu w0 wa h
        A_s n_s nz zarr dfarr = some (r, H') := by
  by_cases hnz : nz ≤ 0
  · obtain ⟨r, hr, -⟩ := create_nonpos nu u H Omega_c Omega_b Omega_k N_nu_rel N_nu_mass mnu
      w0 wa h A_s n_s nz zarr dfarr hnz
    exact ⟨r, H, hr⟩
  · simp only [mgrowth_args_ok, hnz, decide_False, Bool.false_or, Bool.and_eq_true] at hok
    obtain ⟨a, zs, rfl, hz, hzl⟩ := (readable_iff _ _ _).1 hok.1
    obtain ⟨b, ds, rfl, hd, hdl⟩ := (readable_iff _ _ _).1 hok.2
    obtain ⟨r, hr, -⟩ := create_pos nu u H Omega_c Omega_b Omega_k N_nu_rel N_nu_mass mnu
      w0 wa h A_s n_s nz a b zs ds (by omega) hz hd hzl hdl
    exact ⟨r, _, hr⟩

/-! ## Closure (C1) -/

/-- C1 (as amended). Closure up to rounding: the record returned by
`ccl_parameters_create` has `Omega_l = 1 - Omega_m - Omega_g - Omega_n_rel - Omega_k`,
computed in double arithmetic. Whenever its sum
`Omega_m + Omega_g + Omega_n_rel + Omega_k + Omega_l` is finite, the four terms are
finite and, if every operation returns its exact result `x` with an error of
at most `eps * |x| + eta` (with `eps ≤ 1/100`; binary64 has `eps = 2^-53` and
`eta = 2^-1075`), the sum differs from 1 by at most
`10 * eps * (1 + |Omega_m| + |Omega_g| + |Omega_n_rel| + |Omega_k|) + 9 * eta`. A
record is returned whenever the call is defined. -/
theorem ccl_parameters_create_closure [FloatArith] (nu : ccl_neutrinos) (u : ccl_parameters)
    (H : Heap) (Omega_c Omega_b Omega_k N_nu_rel N_nu_mass mnu w0 wa h A_s n_s : Dbl)
    (nz_mgrowth : Int) (zarr_mgrowth dfarr_mgrowth : Ptr) (eps eta : ℚ) :
    (∀ r H', ccl_parameters_create nu u H Omega_c Omega_b Omega_k N_nu_rel N_nu_mass mnu w0 wa
        h A_s n_s nz_mgrowth zarr_mgrowth dfarr_mgrowth = some (r, H') →
      r.Omega_l = Dbl.fin 1 - r.Omega_m - r.Omega_g - r.Omega_n_rel - r.Omega_k ∧
      ((r.Omega_m + r.Omega_g + r.Omega_n_rel + r.Omega_k + r.Omega_l).isfinite = true →
        ∃ m g n k s,
          r.Omega_m = Dbl.fin m ∧ r.Omega_g = Dbl.fin g ∧ r.Omega_n_rel = Dbl.fin n ∧
          r.Omega_k = Dbl.fin k ∧
          r.Omega_m + r.Omega_g + r.Omega_n_rel + r.Omega_k + r.Omega_l = Dbl.fin s ∧
          ((∀ x y, FloatArith.round x = Dbl.fin y → |y - x| ≤ eps * |x| + eta) →
            0 ≤ eps → eps ≤ 1 / 100 → 0 ≤ eta →
            |s - 1| ≤ 10 * eps * (1 + |m| + |g| + |n| + |k|) + 9 * eta))) ∧
    (mgrowth_args_ok H nz_mgrowth zarr_mgrowth dfarr_mgrowth = true →
      ∃ r H', ccl_parameters_create nu u H Omega_c Omega_b Omega_k N_nu_rel N_nu_mass mnu w0 wa
        h A_s n_s nz_mgrowth zarr_mgrowth dfarr_mgrowth = some (r, H')) := by
  refine ⟨fun r H' hr => ?_, create_returns nu u H Omega_c Omega_b Omega_k N_nu_rel N_nu_mass
    mnu w0 wa h A_s n_s nz_mgrowth zarr_mgrowth dfarr_mgrowth⟩
  obtain ⟨-, -, -, -, -, -, -, -, -, -, -, -, -, -, -, -, -, -, -, -, hl⟩ :=
    create_scalars nu u H H' _ _ _ _ _ _ _ _ _ _ _ _ _ _ r hr
  rw [Dbl.one_lit] at hl
  refine ⟨hl, fun hfin => ?_⟩
  obtain ⟨s, hs⟩ := (Dbl.isfinite_iff _).1 hfin
  have hs' := hs
  rw [hl] at hs'
  obtain ⟨m, g, n, k, hm, hg, hn, hk, hb⟩ := closure_sum_finite _ _ _ _ s hs'
  exact ⟨m, g, n, k, s, hm, hg, hn, hk, hs, hb eps eta⟩

/-- The accuracy of the stand-in arithmetic: relative error `2^-53`. -/
theorem sample_arith_accuracy (x y : ℚ) (h : sample_arith.round x = Dbl.fin y) :
    |y - x| ≤ 1 / 2 ^ 53 * |x| + 0 := by
  simp only [sample_arith, Dbl.fin.injEq] at h
  subst h
  have : x * (1 + 1 / 2 ^ 53) - x = 1 / 2 ^ 53 * x := by ring
  rw [this, abs_mul, abs_of_pos (by positivity : (0 : ℚ) < 1 / 2 ^ 53)]
  simp

theorem sample_add :
    letI := sample_arith
    ∀ a b : ℚ, Dbl.fin a + Dbl.fin b = Dbl.fin ((a + b) * (1 + 1 / 2 ^ 53)) :=
  fun _ _ => rfl

theorem sample_sub :
    letI := sample_arith
    ∀ a b : ℚ, Dbl.fin a - Dbl.fin b = Dbl.fin ((a + -b) * (1 + 1 / 2 ^ 53)) :=
  fun _ _ => rfl

theorem sample_mul :
    letI := sample_arith
    ∀ a b : ℚ, Dbl.fin a * Dbl.fin b = Dbl.fin (a * b * (1 + 1 / 2 ^ 53)) :=
  fun _ _ => rfl

theorem sample_pow :
    letI := sample_arith
    ∀ a : ℚ, Dbl.pow (Dbl.fin a) 4 = Dbl.fin (a ^ 4 * (1 + 1 / 2 ^ 53)) :=
  fun _ => rfl

theorem sample_div :
    letI := sample_arith
    ∀ a b : ℚ, b ≠ 0 → Dbl.fin a / Dbl.fin b = Dbl.fin (a / b * (1 + 1 / 2 ^ 53)) := by
  intro a b hb
  simp [Dbl.div_def, Dbl.div, hb, sample_arith]

theorem sample_div_zero :
    letI := sample_arith
    ∀ a : ℚ, 0 < a → Dbl.fin a / Dbl.fin 0 = Dbl.inf false := by
  intro a ha
  simp [Dbl.div_def, Dbl.div, ha.ne', not_lt.2 ha.le]

/-- At the parameters of the neutrino test program, in the stand-in
arithmetic, the closure sum of the returned record is finite. -/
theorem sample_closure_isfinite :
    letI := sample_arith
    ∀ r H', ccl_parameters_create sample_nu sample_params [] (Dbl.fin 0.3) (Dbl.fin 0.05)
        (Dbl.fin 0) (Dbl.fin 0.00641) (Dbl.fin 3) (Dbl.fin 0.12) (Dbl.fin (-1)) (Dbl.fin 0)
        (Dbl.fin 0.7) (Dbl.fin 2.215e-9) (Dbl.fin 0.9619) (-1) none none = some (r, H') →
      (r.Omega_m + r.Omega_g + r.Omega_n_rel + r.Omega_k + r.Omega_l).isfinite = true := by
  intro r H' hr
  obtain ⟨hc, hb, hk, -, -, -, -, -, -, -, -, -, -, -, -, hg, hnr, hnm, -, hm, hl⟩ :=
    @create_scalars sample_arith _ _ _ _ _ _ _ _ _ _ _ _ _ _ _ _ _ _ r hr
  rw [hl, hm, hb, hc, hk, hg, hnr, hnm]
  simp (disch := norm_num) only [sample_nu, M_PI, sample_add, sample_sub, sample_mul,
    sample_pow, sample_div, Dbl.isfinite_fin]

/-- The theorem `ccl_parameters_create_closure` at the parameters of the
neutrino test program, without a modified-growth table, in the stand-in
arithmetic with `eps = 2^-53` and `eta = 0`. -/
theorem ccl_parameters_create_closure_witness :
    letI := sample_arith
    mgrowth_args_ok [] (-1) none none = true ∧
    (∀ x y, FloatArith.round x = Dbl.fin y → |y - x| ≤ 1 / 2 ^ 53 * |x| + 0) ∧
    (0 : ℚ) ≤ 1 / 2 ^ 53 ∧ (1 / 2 ^ 53 : ℚ) ≤ 1 / 100 ∧ (0 : ℚ) ≤ 0 ∧
    ∃ r H', ccl_parameters_create sample_nu sample_params [] (Dbl.fin 0.3) (Dbl.fin 0.05)
        (Dbl.fin 0) (Dbl.fin 0.00641) (Dbl.fin 3) (Dbl.fin 0.12) (Dbl.fin (-1)) (Dbl.fin 0)
        (Dbl.fin 0.7) (Dbl.fin 2.215e-9) (Dbl.fin 0.9619) (-1) none none = some (r, H') ∧
      (r.Omega_m + r.Omega_g + r.Omega_n_rel + r.Omega_k + r.Omega_l).isfinite = true ∧
      ∃ m g n k s,
        r.Omega_m = Dbl.fin m ∧ r.Omega_g = Dbl.fin g ∧ r.Omega_n_rel = Dbl.fin n ∧
        r.Omega_k = Dbl.fin k ∧
        r.Omega_m + r.Omega_g + r.Omega_n_rel + r.Omega_k + r.Omega_l = Dbl.fin s ∧
        |s - 1| ≤ 10 * (1 / 2 ^ 53) * (1 + |m| + |g| + |n| + |k|) + 9 * 0 :=
  have w := @ccl_parameters_create_closure sample_arith (@sample_nu sample_arith)
    sample_params [] (Dbl.fin 0.3) (Dbl.fin 0.05) (Dbl.fin 0) (Dbl.fin 0.00641) (Dbl.fin 3)
    (Dbl.fin 0.12) (Dbl.fin (-1)) (Dbl.fin 0) (Dbl.fin 0.7) (Dbl.fin 2.215e-9)
    (Dbl.fin 0.9619) (-1) none none (1 / 2 ^ 53) 0
  have he0 : (0 : ℚ) ≤ 1 / 2 ^ 53 := by norm_num
  have he : (1 / 2 ^ 53 : ℚ) ≤ 1 / 100 := by norm_num
  ⟨by decide, sample_arith_accuracy, he0, he, le_refl 0,
    match w.2 (by decide) with
    | ⟨r, H', hr⟩ =>
      have hfin := sample_closure_isfinite r H' hr
      match (w.1 r H' hr).2 hfin with
      | ⟨m, g, n, k, s, hm, hg, hn, hk, hs, hb⟩ =>
        ⟨r, H', hr, hfin, m, g, n, k, s, hm, hg, hn, hk, hs,
          hb sample_arith_accuracy he0 he (le_refl 0)⟩⟩

theorem isfinite_of_add [FloatArith] (a b : Dbl) (h : (a + b).isfinite = true) :
    a.isfinite = true ∧ b.isfinite = true := by
  obtain ⟨s, hs⟩ := (Dbl.isfinite_iff _).1 h
  obtain ⟨x, y, rfl, rfl, -⟩ := add_eq_fin a b s hs
  exact ⟨rfl, rfl⟩

theorem mul_zero_cases [FloatArith] (h0 : FloatArith.round 0 = Dbl.fin 0) (d : Dbl) :
    d * Dbl.fin 0 = Dbl.fin 0 ∨ d * Dbl.fin 0 = Dbl.nan := by
  cases d with
  | fin q =>
    left
    show FloatArith.round (q * 0) = Dbl.fin 0
    rw [mul_zero, h0]
  | inf n => right; simp [Dbl.mul_def, Dbl.mul]
  | nan => right; rfl

theorem div_zero_not_finite [FloatArith] (x : Dbl) : (x / Dbl.fin 0).isfinite = false := by
  cases x with
  | fin a =>
    by_cases ha : a = 0 <;> simp [Dbl.div_def, Dbl.div, ha]
  | inf n => rfl
  | nan => rfl

theorem div_nan_not_finite [FloatArith] (x : Dbl) : (x / Dbl.nan).isfinite = false := by
  cases x <;> rfl

/-- With `h = 0` the closure sum of the returned record is not finite, hence
not 1, in every arithmetic that rounds zero to zero. -/
theorem closure_not_finite_at_h_zero [FloatArith] (h0 : FloatArith.round 0 = Dbl.fin 0)
    (nu : ccl_neutrinos) (u : ccl_parameters) (H H' : Heap)
    (Omega_c Omega_b Omega_k N_nu_rel N_nu_mass mnu w0 wa A_s n_s : Dbl)
    (nz_mgrowth : Int) (zarr_mgrowth dfarr_mgrowth : Ptr) (r : ccl_parameters)
    (hr : ccl_parameters_create nu u H Omega_c Omega_b Omega_k N_nu_rel N_nu_mass mnu w0 wa
        (Dbl.fin 0) A_s n_s nz_mgrowth zarr_mgrowth dfarr_mgrowth = some (r, H')) :
    (r.Omega_m + r.Omega_g + r.Omega_n_rel + r.Omega_k + r.Omega_l).isfinite = false := by
  obtain ⟨-, -, -, -, -, -, -, -, -, -, -, -, -, -, -, hg, -⟩ :=
    create_scalars nu u H H' _ _ _ _ _ _ _ _ _ _ _ _ _ _ r hr
  have hgf : r.Omega_g.isfinite = false := by
    rw [hg]
    rcases mul_zero_cases h0 (Dbl.fin 15 * Dbl.fin 8.098e-11) with h1 | h1
    · rw [h1]
      rcases mul_zero_cases h0 (Dbl.fin 0) with h2 | h2
      · rw [h2]; exact div_zero_not_finite _
      · rw [h2]; exact div_nan_not_finite _
    · rw [h1]
      have h2 : Dbl.nan * Dbl.fin 0 = Dbl.nan := rfl
      rw [h2]; exact div_nan_not_finite _
  cases hsum : (r.Omega_m + r.Omega_g + r.Omega_n_rel + r.Omega_k + r.Omega_l).isfinite with
  | false => rfl
  | true =>
    have h4 := (isfinite_of_add _ _ hsum).1
    have h3 := (isfinite_of_add _ _ h4).1
    have h2 := (isfinite_of_add _ _ h3).1
    have h1 := (isfinite_of_add _ _ h2).2
    rw [hgf] at h1
    exact absurd h1 (by simp)

/-- C1 (counterexample). With `h = 0` and otherwise the parameters of the
neutrino test program, the closure sum of the returned record is not-a-number,
not 1. -/
theorem ccl_parameters_create_closure_fails_at_h_zero :
    letI := sample_arith
    (ccl_parameters_create sample_nu sample_params [] (Dbl.fin 0.3) (Dbl.fin 0.05)
        (Dbl.fin 0) (Dbl.fin 0.00641) (Dbl.fin 3) (Dbl.fin 0.12) (Dbl.fin (-1)) (Dbl.fin 0)
        (Dbl.fin 0) (Dbl.fin 2.215e-9) (Dbl.fin 0.9619) (-1) none none).map
      (fun x => x.1.Omega_m + x.1.Omega_g + x.1.Omega_n_rel + x.1.Omega_k + x.1.Omega_l)
        = some Dbl.nan ∧
    some Dbl.nan ≠ some (Dbl.fin 1) := by
  refine ⟨?_, by simp⟩
  obtain ⟨r, hr, -⟩ := @create_nonpos sample_arith (@sample_nu sample_arith) sample_params []
        (Dbl.fin 0.3) (Dbl.fin 0.05)
        (Dbl.fin 0) (Dbl.fin 0.00641) (Dbl.fin 3) (Dbl.fin 0.12) (Dbl.fin (-1)) (Dbl.fin 0)
        (Dbl.fin 0) (Dbl.fin 2.215e-9) (Dbl.fin 0.9619) (-1) none none (by decide)
  obtain ⟨hc, hb, hk, -, -, -, -, -, -, -, -, -, -, -, -, hg, hnr, hnm, -, hm, hl⟩ :=
    @create_scalars sample_arith _ _ _ _ _ _ _ _ _ _ _ _ _ _ _ _ _ _ r hr
  rw [hr]
  simp only [Option.map_some', Option.some.injEq]
  rw [hl, hm, hb, hc, hk, hg, hnr, hnm]
  simp (disch := norm_num) only [sample_nu, M_PI, sample_add, sample_sub, sample_mul,
    sample_pow, sample_div]
  norm_num
  simp (disch := norm_num) only [sample_div_zero]
  rfl

/-! ## Normalization and stored fields (C2, C3, C4, C10) -/

/-- C2 (as amended). After `ccl_parameters_fill_initial` at most one of `A_s`
and `sigma_8` is finite, and exactly one is finite if and only if at least one
of them was finite on entry. The record returned by `ccl_parameters_create`
has exactly one of them finite if and only if the `A_s` argument is finite;
its `sigma_8` is never finite. A record is returned whenever the call is
defined. -/
theorem normalization_at_most_one_finite [FloatArith] (nu : ccl_neutrinos) (p u : ccl_parameters)
    (H : Heap) (Omega_c Omega_b Omega_k N_nu_rel N_nu_mass mnu w0 wa h A_s n_s : Dbl)
    (nz_mgrowth : Int) (zarr_mgrowth dfarr_mgrowth : Ptr) :
    exactly_one_finite (ccl_parameters_fill_initial nu p) =
        (p.A_s.isfinite || p.sigma_8.isfinite) ∧
    ((ccl_parameters_fill_initial nu p).A_s.isfinite &&
        (ccl_parameters_fill_initial nu p).sigma_8.isfinite) = false ∧
    (∀ r H', ccl_parameters_create nu u H Omega_c Omega_b Omega_k N_nu_rel N_nu_mass mnu w0 wa
        h A_s n_s nz_mgrowth zarr_mgrowth dfarr_mgrowth = some (r, H') →
      exactly_one_finite r = A_s.isfinite ∧ r.sigma_8.isfinite = false) ∧
    (mgrowth_args_ok H nz_mgrowth zarr_mgrowth dfarr_mgrowth = true →
      ∃ r H', ccl_parameters_create nu u H Omega_c Omega_b Omega_k N_nu_rel N_nu_mass mnu w0 wa
        h A_s n_s nz_mgrowth zarr_mgrowth dfarr_mgrowth = some (r, H')) := by
  refine ⟨?_, ?_, fun r H' hr => ?_, create_returns nu u H Omega_c Omega_b Omega_k N_nu_rel
    N_nu_mass mnu w0 wa h A_s n_s nz_mgrowth zarr_mgrowth dfarr_mgrowth⟩
  · rw [fill_initial_eq]
    cases hA : p.A_s.isfinite <;> cases hS : p.sigma_8.isfinite <;>
      simp [exactly_one_finite, hA, hS]
  · rw [fill_initial_eq]
    cases hA : p.A_s.isfinite <;> cases hS : p.sigma_8.isfinite <;> simp [hA, hS]
  · obtain ⟨-, -, -, -, -, -, -, -, -, -, -, -, hA, hS, -⟩ :=
      create_scalars nu u H H' _ _ _ _ _ _ _ _ _ _ _ _ _ _ r hr
    simp [exactly_one_finite, hA, hS]

/-- The theorem `normalization_at_most_one_finite` at a record with a finite
`sigma_8` only, and at the constructor call of the neutrino test program. -/
theorem normalization_at_most_one_finite_witness :
    letI := sample_arith
    mgrowth_args_ok [] (-1) none none = true ∧
    ∃ r H', ccl_parameters_create sample_nu sample_params [] (Dbl.fin 0.3) (Dbl.fin 0.05)
        (Dbl.fin 0) (Dbl.fin 0.00641) (Dbl.fin 3) (Dbl.fin 0.12) (Dbl.fin (-1)) (Dbl.fin 0)
        (Dbl.fin 0.7) (Dbl.fin 2.215e-9) (Dbl.fin 0.9619) (-1) none none = some (r, H') ∧
      exactly_one_finite r = (Dbl.fin 2.215e-9).isfinite ∧ r.sigma_8.isfinite = false :=
  have w := @normalization_at_most_one_finite sample_arith (@sample_nu sample_arith)
    { sample_params with A_s := Dbl.nan }
    sample_params [] (Dbl.fin 0.3) (Dbl.fin 0.05) (Dbl.fin 0) (Dbl.fin 0.00641) (Dbl.fin 3)
    (Dbl.fin 0.12) (Dbl.fin (-1)) (Dbl.fin 0) (Dbl.fin 0.7) (Dbl.fin 2.215e-9)
    (Dbl.fin 0.9619) (-1) none none
  ⟨by decide,
    match w.2.2.2 (by decide) with
    | ⟨r, H', hr⟩ => ⟨r, H', hr, w.2.2.1 r H' hr⟩⟩

/-- C2 (counterexample). With `A_s` not-a-number and `sigma_8` infinite on
entry, neither is finite after `ccl_parameters_fill_initial`; and the record
that `ccl_parameters_create` returns for a not-a-number `A_s` argument has
neither finite. -/
theorem normalization_neither_finite :
    letI := sample_arith
    exactly_one_finite (ccl_parameters_fill_initial sample_nu
        { sample_params with A_s := Dbl.nan, sigma_8 := Dbl.inf false }) = false ∧
    (ccl_parameters_create sample_nu sample_params [] (Dbl.fin 0.3) (Dbl.fin 0.05)
        (Dbl.fin 0) (Dbl.fin 0.00641) (Dbl.fin 3) (Dbl.fin 0.12) (Dbl.fin (-1)) (Dbl.fin 0)
        (Dbl.fin 0.7) Dbl.nan (Dbl.fin 0.9619) (-1) none none).map
      (fun x => exactly_one_finite x.1) = some false := by
  constructor
  · rw [@fill_initial_eq sample_arith]
    simp [exactly_one_finite]
  · obtain ⟨r, hr, -⟩ := @create_nonpos sample_arith (@sample_nu sample_arith) sample_params []
        (Dbl.fin 0.3) (Dbl.fin 0.05)
        (Dbl.fin 0) (Dbl.fin 0.00641) (Dbl.fin 3) (Dbl.fin 0.12) (Dbl.fin (-1)) (Dbl.fin 0)
        (Dbl.fin 0.7) Dbl.nan (Dbl.fin 0.9619) (-1) none none (by decide)
    obtain ⟨-, -, -, -, -, -, -, -, -, -, -, -, hA, hS, -⟩ :=
      @create_scalars sample_arith _ _ _ _ _ _ _ _ _ _ _ _ _ _ _ _ _ _ r hr
    rw [hr]
    simp [exactly_one_finite, hA, hS]

/-- C3. Normalization exclusivity of `ccl_parameters_fill_initial`: when `A_s`
and `sigma_8` are not both finite on entry, a finite `A_s` is left unchanged
and `sigma_8` becomes not-a-number, and a finite `sigma_8` is left unchanged
and `A_s` becomes not-a-number; and for every input record whatsoever `A_s` and
`sigma_8` are not both finite on exit. -/
theorem fill_initial_normalization_exclusive [FloatArith] (nu : ccl_neutrinos)
    (p : ccl_parameters) :
    (¬ (p.A_s.isfinite = true ∧ p.sigma_8.isfinite = true) →
      (p.A_s.isfinite = true →
        (ccl_parameters_fill_initial nu p).A_s = p.A_s ∧
        (ccl_parameters_fill_initial nu p).sigma_8 = Dbl.nan) ∧
      (p.sigma_8.isfinite = true →
        (ccl_parameters_fill_initial nu p).sigma_8 = p.sigma_8 ∧
        (ccl_parameters_fill_initial nu p).A_s = Dbl.nan)) ∧
    ¬ ((ccl_parameters_fill_initial nu p).A_s.isfinite = true ∧
       (ccl_parameters_fill_initial nu p).sigma_8.isfinite = true) := by
  rw [fill_initial_eq]
  cases hA : p.A_s.isfinite <;> cases hS : p.sigma_8.isfinite <;> simp [hA, hS]

/-- The theorem `fill_initial_normalization_exclusive` at a record whose
`sigma_8` is finite and whose `A_s` is infinite. -/
theorem fill_initial_normalization_exclusive_witness :
    letI := sample_arith
    ¬ (({ sample_params with A_s := Dbl.inf false } : ccl_parameters).A_s.isfinite = true ∧
       ({ sample_params with A_s := Dbl.inf false } : ccl_parameters).sigma_8.isfinite = true) ∧
    ({ sample_params with A_s := Dbl.inf false } : ccl_parameters).sigma_8.isfinite = true ∧
    (ccl_parameters_fill_initial sample_nu { sample_params with A_s := Dbl.inf false }).sigma_8
      = ({ sample_params with A_s := Dbl.inf false } : ccl_parameters).sigma_8 ∧
    (ccl_parameters_fill_initial sample_nu { sample_params with A_s := Dbl.inf false }).A_s
      = Dbl.nan :=
  ⟨by decide, by decide,
    ((@fill_initial_normalization_exclusive sample_arith (@sample_nu sample_arith)
      { sample_params with A_s := Dbl.inf false }).1 (by decide)).2 (by decide)⟩

/-- C4. The record returned by `ccl_parameters_create` stores the primary
arguments unchanged and has `H0 = 100*h`, `T_CMB = 2.7255`,
`Omega_n_rel = Omeganuh2(1, N_nu_rel, 0, T_CMB, table)/h^2`,
`Omega_n_mass = Omeganuh2(1, N_nu_mass, mnu, T_CMB, table)/h^2`,
`Omega_n = Omega_n_rel + Omega_n_mass`,
`Omega_m = Omega_b + Omega_c + Omega_n_mass` and `z_star` not-a-number. A
record is returned whenever the call is defined. -/
theorem ccl_parameters_create_fields [FloatArith] (nu : ccl_neutrinos) (u : ccl_parameters)
    (H : Heap)
    (Omega_c Omega_b Omega_k N_nu_rel N_nu_mass mnu w0 wa h A_s n_s : Dbl)
    (nz_mgrowth : Int) (zarr_mgrowth dfarr_mgrowth : Ptr) :
    (∀ r H', ccl_parameters_create nu u H Omega_c Omega_b Omega_k N_nu_rel N_nu_mass mnu w0 wa
        h A_s n_s nz_mgrowth zarr_mgrowth dfarr_mgrowth = some (r, H') →
      r.Omega_c = Omega_c ∧ r.Omega_b = Omega_b ∧ r.Omega_k = Omega_k ∧
      r.N_nu_rel = N_nu_rel ∧ r.N_nu_mass = N_nu_mass ∧ r.mnu = mnu ∧
      r.w0 = w0 ∧ r.wa = wa ∧ r.h = h ∧ r.n_s = n_s ∧
      r.H0 = Dbl.fin 100 * h ∧
      r.T_CMB = Dbl.fin 2.7255 ∧
      r.Omega_n_rel = nu.Omeganuh2 (Dbl.fin 1) N_nu_rel (Dbl.fin 0) r.T_CMB
        nu.ccl_calculate_nu_phasespace_spline / (h * h) ∧
      r.Omega_n_mass = nu.Omeganuh2 (Dbl.fin 1) N_nu_mass mnu r.T_CMB
        nu.ccl_calculate_nu_phasespace_spline / (h * h) ∧
      r.Omega_n = r.Omega_n_rel + r.Omega_n_mass ∧
      r.Omega_m = r.Omega_b + r.Omega_c + r.Omega_n_mass ∧
      r.z_star = Dbl.nan) ∧
    (mgrowth_args_ok H nz_mgrowth zarr_mgrowth dfarr_mgrowth = true →
      ∃ r H', ccl_parameters_create nu u H Omega_c Omega_b Omega_k N_nu_rel N_nu_mass mnu w0 wa
        h A_s n_s nz_mgrowth zarr_mgrowth dfarr_mgrowth = some (r, H')) := by
  refine ⟨fun r H' hr => ?_, create_returns nu u H Omega_c Omega_b Omega_k N_nu_rel N_nu_mass
    mnu w0 wa h A_s n_s nz_mgrowth zarr_mgrowth dfarr_mgrowth⟩
  obtain ⟨h1, h2, h3, h4, h5, h6, h7, h8, h9, h10, h11, h12, -, -, h15, -, h17, h18, h19, h20,
    -⟩ := create_scalars nu u H H' _ _ _ _ _ _ _ _ _ _ _ _ _ _ r hr
  rw [Dbl.one_lit] at h17 h18
  refine ⟨h1, h2, h3, h4, h5, h6, h7, h8, h9, h10, ?_, h12, ?_, ?_, h19, h20, h15⟩
  · rw [h11, dbl_mul_comm]
  · rw [h17, h12]
  · rw [h18, h12]

/-- The theorem `ccl_parameters_create_fields` at a call that supplies a
modified-growth table of two samples. -/
theorem ccl_parameters_create_fields_witness :
    letI := sample_arith
    mgrowth_args_ok sample_heap 2 (some 0) (some 1) = true ∧
    ∃ r H', ccl_parameters_create sample_nu sample_params sample_heap (Dbl.fin 0.3)
        (Dbl.fin 0.05) (Dbl.fin 0) (Dbl.fin 0.00641) (Dbl.fin 3) (Dbl.fin 0.12) (Dbl.fin (-1))
        (Dbl.fin 0) (Dbl.fin 0.7) (Dbl.fin 2.215e-9) (Dbl.fin 0.9619) 2 (some 0) (some 1)
          = some (r, H') ∧
      r.Omega_c = Dbl.fin 0.3 ∧ r.Omega_b = Dbl.fin 0.05 ∧ r.Omega_k = Dbl.fin 0 ∧
      r.N_nu_rel = Dbl.fin 0.00641 ∧ r.N_nu_mass = Dbl.fin 3 ∧ r.mnu = Dbl.fin 0.12 ∧
      r.w0 = Dbl.fin (-1) ∧ r.wa = Dbl.fin 0 ∧ r.h = Dbl.fin 0.7 ∧ r.n_s = Dbl.fin 0.9619 ∧
      r.H0 = Dbl.fin 100 * Dbl.fin 0.7 ∧
      r.T_CMB = Dbl.fin 2.7255 ∧
      r.Omega_n_rel = sample_nu.Omeganuh2 (Dbl.fin 1) (Dbl.fin 0.00641) (Dbl.fin 0) r.T_CMB
        sample_nu.ccl_calculate_nu_phasespace_spline / (Dbl.fin 0.7 * Dbl.fin 0.7) ∧
      r.Omega_n_mass = sample_nu.Omeganuh2 (Dbl.fin 1) (Dbl.fin 3) (Dbl.fin 0.12) r.T_CMB
        sample_nu.ccl_calculate_nu_phasespace_spline / (Dbl.fin 0.7 * Dbl.fin 0.7) ∧
      r.Omega_n = r.Omega_n_rel + r.Omega_n_mass ∧
      r.Omega_m = r.Omega_b + r.Omega_c + r.Omega_n_mass ∧
      r.z_star = Dbl.nan :=
  have w := @ccl_parameters_create_fields sample_arith (@sample_nu sample_arith)
    sample_params sample_heap (Dbl.fin 0.3)
      (Dbl.fin 0.05) (Dbl.fin 0) (Dbl.fin 0.00641) (Dbl.fin 3) (Dbl.fin 0.12) (Dbl.fin (-1))
      (Dbl.fin 0) (Dbl.fin 0.7) (Dbl.fin 2.215e-9) (Dbl.fin 0.9619) 2 (some 0) (some 1)
  ⟨by decide,
    match w.2 (by decide) with
    | ⟨r, H', hr⟩ => ⟨r, H', hr, w.1 r H' hr⟩⟩

/-- C10. The record returned by `ccl_parameters_create` has `sigma_8`
not-a-number and its `A_s` is the `A_s` argument unchanged, whether that
argument is finite, infinite or not-a-number. A record is returned whenever
the call is defined. -/
theorem ccl_parameters_create_normalization [FloatArith] (nu : ccl_neutrinos) (u : ccl_parameters)
    (H : Heap) (Omega_c Omega_b Omega_k N_nu_rel N_nu_mass mnu w0 wa h A_s n_s : Dbl)
    (nz_mgrowth : Int) (zarr_mgrowth dfarr_mgrowth : Ptr) :
    (∀ r H', ccl_parameters_create nu u H Omega_c Omega_b Omega_k N_nu_rel N_nu_mass mnu w0 wa
        h A_s n_s nz_mgrowth zarr_mgrowth dfarr_mgrowth = some (r, H') →
      r.sigma_8 = Dbl.nan ∧ r.A_s = A_s) ∧
    (mgrowth_args_ok H nz_mgrowth zarr_mgrowth dfarr_mgrowth = true →
      ∃ r H', ccl_parameters_create nu u H Omega_c Omega_b Omega_k N_nu_rel N_nu_mass mnu w0 wa
        h A_s n_s nz_mgrowth zarr_mgrowth dfarr_mgrowth = some (r, H')) := by
  refine ⟨fun r H' hr => ?_, create_returns nu u H Omega_c Omega_b Omega_k N_nu_rel N_nu_mass
    mnu w0 wa h A_s n_s nz_mgrowth zarr_mgrowth dfarr_mgrowth⟩
  obtain ⟨-, -, -, -, -, -, -, -, -, -, -, -, hA, hS, -⟩ :=
    create_scalars nu u H H' _ _ _ _ _ _ _ _ _ _ _ _ _ _ r hr
  exact ⟨hS, hA⟩

/-- The theorem `ccl_parameters_create_normalization` at an infinite `A_s`
argument. -/
theorem ccl_parameters_create_normalization_witness :
    letI := sample_arith
    mgrowth_args_ok [] 0 none none = true ∧
    ∃ r H', ccl_parameters_create sample_nu sample_params [] (Dbl.fin 0.3) (Dbl.fin 0.05)
        (Dbl.fin 0) (Dbl.fin 0.00641) (Dbl.fin 3) (Dbl.fin 0.12) (Dbl.fin (-1)) (Dbl.fin 0)
        (Dbl.fin 0.7) (Dbl.inf true) (Dbl.fin 0.9619) 0 none none = some (r, H') ∧
      r.sigma_8 = Dbl.nan ∧ r.A_s = Dbl.inf true :=
  have w := @ccl_parameters_create_normalization sample_arith (@sample_nu sample_arith)
    sample_params [] (Dbl.fin 0.3)
      (Dbl.fin 0.05) (Dbl.fin 0) (Dbl.fin 0.00641) (Dbl.fin 3) (Dbl.fin 0.12) (Dbl.fin (-1))
      (Dbl.fin 0) (Dbl.fin 0.7) (Dbl.inf true) (Dbl.fin 0.9619) 0 none none
  ⟨by decide,
    match w.2 (by decide) with
    | ⟨r, H', hr⟩ => ⟨r, H', hr, w.1 r H' hr⟩⟩

/-! ## Modified-growth table and fresh cosmology (C5, C6) -/

theorem create_mgrowth_fields [FloatArith] (nu : ccl_neutrinos) (u : ccl_parameters) (H H' : Heap)
    (Omega_c Omega_b Omega_k N_nu_rel N_nu_mass mnu w0 wa h A_s n_s : Dbl)
    (nz : Int) (zarr dfarr : Ptr) (r : ccl_parameters)
    (hr : ccl_parameters_create nu u H Omega_c Omega_b Omega_k N_nu_rel N_nu_mass mnu w0 wa h
        A_s n_s nz zarr dfarr = some (r, H')) :
    (0 < nz → r.has_mgrowth = true ∧ r.nz_mgrowth = nz ∧ r.z_mgrowth = some H.length ∧
      r.df_mgrowth = some (H.length + 1)) ∧
    (nz ≤ 0 → r.has_mgrowth = false ∧ r.nz_mgrowth = 0 ∧ r.z_mgrowth = none ∧
      r.df_mgrowth = none) := by
  unfold ccl_parameters_create at hr
  split at hr
  · next hpos =>
    simp only [malloc, Option.bind_eq_some] at hr
    obtain ⟨H1, -, H2, -, hr⟩ := hr
    simp only [Option.some.injEq, Prod.mk.injEq] at hr
    obtain ⟨rfl, -⟩ := hr
    refine ⟨fun _ => by simp, fun hneg => ?_⟩
    omega
  · next hneg =>
    simp only [Option.some.injEq, Prod.mk.injEq] at hr
    obtain ⟨rfl, -⟩ := hr
    refine ⟨fun hpos => ?_, fun _ => by simp⟩
    omega

/-- C5. Modified-growth table of `ccl_parameters_create`. With a positive
count and arrays readable for that many cells, the record has
`has_mgrowth = true`, `nz_mgrowth` equal to the count, and `z_mgrowth`,
`df_mgrowth` point to two distinct blocks that did not exist before the call
and hold the first `nz_mgrowth` cells of `zarr`, `dfarr`; the blocks of the
caller are unchanged. With a count that is not positive the record has
`has_mgrowth = false`, `nz_mgrowth = 0` and both pointers null, whatever
arrays were passed. In every returned record `has_mgrowth` holds iff
`nz_mgrowth > 0` iff both pointers are non-null. -/
theorem ccl_parameters_create_mgrowth [FloatArith] (nu : ccl_neutrinos) (u : ccl_parameters)
    (H : Heap)
    (Omega_c Omega_b Omega_k N_nu_rel N_nu_mass mnu w0 wa h A_s n_s : Dbl)
    (nz_mgrowth : Int) (zarr_mgrowth dfarr_mgrowth : Ptr) :
    (0 < nz_mgrowth → readable H zarr_mgrowth nz_mgrowth.toNat = true →
      readable H dfarr_mgrowth nz_mgrowth.toNat = true →
      ∃ r H' zs ds,
        ccl_parameters_create nu u H Omega_c Omega_b Omega_k N_nu_rel N_nu_mass mnu w0 wa h
          A_s n_s nz_mgrowth zarr_mgrowth dfarr_mgrowth = some (r, H') ∧
        r.has_mgrowth = true ∧ r.nz_mgrowth = nz_mgrowth ∧
        load H zarr_mgrowth = some zs ∧ load H dfarr_mgrowth = some ds ∧
        load H' r.z_mgrowth = some (zs.take nz_mgrowth.toNat) ∧
        load H' r.df_mgrowth = some (ds.take nz_mgrowth.toNat) ∧
        (zs.take nz_mgrowth.toNat).length = nz_mgrowth.toNat ∧
        (ds.take nz_mgrowth.toNat).length = nz_mgrowth.toNat ∧
        load H r.z_mgrowth = none ∧ load H r.df_mgrowth = none ∧
        r.z_mgrowth ≠ r.df_mgrowth ∧
        (∀ p b, load H p = some b → load H' p = some b)) ∧
    (nz_mgrowth ≤ 0 →
      ∃ r,
        ccl_parameters_create nu u H Omega_c Omega_b Omega_k N_nu_rel N_nu_mass mnu w0 wa h
          A_s n_s nz_mgrowth zarr_mgrowth dfarr_mgrowth = some (r, H) ∧
        r.has_mgrowth = false ∧ r.nz_mgrowth = 0 ∧ r.z_mgrowth = none ∧
        r.df_mgrowth = none) ∧
    (∀ r H',
      ccl_parameters_create nu u H Omega_c Omega_b Omega_k N_nu_rel N_nu_mass mnu w0 wa h
          A_s n_s nz_mgrowth zarr_mgrowth dfarr_mgrowth = some (r, H') →
      (r.has_mgrowth = true ↔ 0 < r.nz_mgrowth) ∧
      (0 < r.nz_mgrowth ↔ (r.z_mgrowth ≠ none ∧ r.df_mgrowth ≠ none))) := by
  refine ⟨fun hpos hz hd => ?_, fun hneg => ?_, fun r H' hr => ?_⟩
  · obtain ⟨a, zs, rfl, hza, hzl⟩ := (readable_iff _ _ _).1 hz
    obtain ⟨b, ds, rfl, hdb, hdl⟩ := (readable_iff _ _ _).1 hd
    obtain ⟨r, hr, h1, h2, h3, h4⟩ := create_pos nu u H Omega_c Omega_b Omega_k N_nu_rel
      N_nu_mass mnu w0 wa h A_s n_s nz_mgrowth a b zs ds hpos hza hdb hzl hdl
    refine ⟨r, _, zs, ds, hr, h1, h2, hza, hdb, ?_, ?_, ?_, ?_, ?_, ?_, ?_, ?_⟩
    · rw [h3]
      show (H ++ _)[H.length]? = _
      rw [List.getElem?_append_right (le_refl _)]; simp
    · rw [h4]
      show (H ++ _)[H.length + 1]? = _
      rw [List.getElem?_append_right (by omega)]; simp
    · simp [hzl]
    · simp [hdl]
    · rw [h3]; show H[H.length]? = none; simp
    · rw [h4]; show H[H.length + 1]? = none; simp
    · rw [h3, h4]; simp
    · intro p b' hab
      cases p with
      | none => simp [load] at hab
      | some a' =>
        show (H ++ _)[a']? = _
        rw [List.getElem?_append_left (List.getElem?_eq_some.1 hab).1]
        exact hab
  · exact create_nonpos nu u H Omega_c Omega_b Omega_k N_nu_rel N_nu_mass mnu w0 wa h A_s n_s
      nz_mgrowth zarr_mgrowth dfarr_mgrowth hneg
  · obtain ⟨hp, hn⟩ := create_mgrowth_fields nu u H H' _ _ _ _ _ _ _ _ _ _ _ _ _ _ r hr
    by_cases hpos : 0 < nz_mgrowth
    · obtain ⟨h1, h2, h3, h4⟩ := hp hpos
      simp [h1, h2, h3, h4, hpos]
    · obtain ⟨h1, h2, h3, h4⟩ := hn (by omega)
      simp [h1, h2, h3, h4]

/-- The theorem `ccl_parameters_create_mgrowth` at a table of two samples
taken from caller arrays of three cells. -/
theorem ccl_parameters_create_mgrowth_witness :
    letI := sample_arith
    (0 : Int) < 2 ∧ readable sample_heap (some 0) (2 : Int).toNat = true ∧
    readable sample_heap (some 1) (2 : Int).toNat = true ∧
    ∃ r H' zs ds,
      ccl_parameters_create sample_nu sample_params sample_heap (Dbl.fin 0.3)
        (Dbl.fin 0.05) (Dbl.fin 0) (Dbl.fin 0.00641) (Dbl.fin 3) (Dbl.fin 0.12) (Dbl.fin (-1))
        (Dbl.fin 0) (Dbl.fin 0.7) (Dbl.fin 2.215e-9) (Dbl.fin 0.9619) 2 (some 0) (some 1)
          = some (r, H') ∧
      r.has_mgrowth = true ∧ r.nz_mgrowth = 2 ∧
      load sample_heap (some 0) = some zs ∧ load sample_heap (some 1) = some ds ∧
      load H' r.z_mgrowth = some (zs.take (2 : Int).toNat) ∧
      load H' r.df_mgrowth = some (ds.take (2 : Int).toNat) ∧
      (zs.take (2 : Int).toNat).length = (2 : Int).toNat ∧
      (ds.take (2 : Int).toNat).length = (2 : Int).toNat ∧
      load sample_heap r.z_mgrowth = none ∧ load sample_heap r.df_mgrowth = none ∧
      r.z_mgrowth ≠ r.df_mgrowth ∧
      (∀ p b, load sample_heap p = some b → load H' p = some b) :=
  ⟨by decide, by decide, by decide,
    (@ccl_parameters_create_mgrowth sample_arith (@sample_nu sample_arith)
      sample_params sample_heap (Dbl.fin 0.3)
      (Dbl.fin 0.05) (Dbl.fin 0) (Dbl.fin 0.00641) (Dbl.fin 3) (Dbl.fin 0.12) (Dbl.fin (-1))
      (Dbl.fin 0) (Dbl.fin 0.7) (Dbl.fin 2.215e-9) (Dbl.fin 0.9619) 2 (some 0) (some 1)).1
      (by decide) (by decide) (by decide)⟩

/-- C6. The object made by `ccl_cosmology_create` holds the parameter record and
the configuration it was given, has status 0, its four computed flags false
and its twelve cache slots null; so on it a slot is non-null iff a computed
flag is true, whichever slot and flag are paired. -/
theorem ccl_cosmology_create_fresh {ccl_configuration : Type}
    (u : ccl_cosmology ccl_configuration) (params : ccl_parameters)
    (config : ccl_configuration) :
    (ccl_cosmology_create u params config).params = params ∧
    (ccl_cosmology_create u params config).config = config ∧
    (ccl_cosmology_create u params config).status = 0 ∧
    (ccl_cosmology_create u params config).computed_distances = false ∧
    (ccl_cosmology_create u params config).computed_growth = false ∧
    (ccl_cosmology_create u params config).computed_power = false ∧
    (ccl_cosmology_create u params config).computed_sigma = false ∧
    (ccl_cosmology_create u params config).data.chi = none ∧
    (ccl_cosmology_create u params config).data.achi = none ∧
    (ccl_cosmology_create u params config).data.growth = none ∧
    (ccl_cosmology_create u params config).data.fgrowth = none ∧
    (ccl_cosmology_create u params config).data.E = none ∧
    (ccl_cosmology_create u params config).data.logsigma = none ∧
    (ccl_cosmology_create u params config).data.p_lin = none ∧
    (ccl_cosmology_create u params config).data.p_nl = none ∧
    (ccl_cosmology_create u params config).data.nu_pspace_int = none ∧
    (ccl_cosmology_create u params config).data.accelerator = none ∧
    (ccl_cosmology_create u params config).data.accelerator_achi = none ∧
    (ccl_cosmology_create u params config).data.accelerator_m = none ∧
    (∀ s ∈ (ccl_cosmology_create u params config).data.slots,
      ∀ f ∈ (ccl_cosmology_create u params config).flags, (s ≠ none ↔ f = true)) := by
  refine ⟨rfl, rfl, rfl, rfl, rfl, rfl, rfl, rfl, rfl, rfl, rfl, rfl, rfl, rfl, rfl, rfl, rfl,
    rfl, rfl, ?_⟩
  have hs : (ccl_cosmology_create u params config).data.slots = List.replicate 12 none := rfl
  have hf : (ccl_cosmology_create u params config).flags = List.replicate 4 false := rfl
  intro s hsm f hfm
  rw [hs] at hsm
  rw [hf] at hfm
  rw [List.eq_of_mem_replicate hsm, List.eq_of_mem_replicate hfm]
  simp

/-! ## Deallocation (C7, C8) -/

theorem spline_piece (p : Ptr) :
    (if p ≠ none then [FreeCall.gsl_spline_free p] else []) =
      p.toList.map (fun a => FreeCall.gsl_spline_free (some a)) := by
  cases p <;> simp

theorem accel_piece (p : Ptr) :
    (if p ≠ none then [FreeCall.gsl_interp_accel_free p] else []) =
      p.toList.map (fun a => FreeCall.gsl_interp_accel_free (some a)) := by
  cases p <;> simp

theorem spline2d_piece (p : Ptr) :
    (if p ≠ none then [FreeCall.gsl_spline2d_free p] else []) =
      p.toList.map (fun a => FreeCall.gsl_spline2d_free (some a)) := by
  cases p <;> simp

theorem reduceOption_cons_toList (p : Ptr) (l : List Ptr) :
    (p :: l).reduceOption = p.toList ++ l.reduceOption := by
  cases p <;> simp [List.reduceOption_cons_of_some, List.reduceOption_cons_of_none]

/-- The addresses `ccl_data_free` releases: those in the first ten slots. -/
theorem data_free_args (d : ccl_data) :
    (ccl_data_free d).map FreeCall.arg =
      (d.chi.toList ++ d.growth.toList ++ d.fgrowth.toList ++ d.accelerator.toList ++
        d.accelerator_achi.toList ++ d.E.toList ++ d.achi.toList ++ d.logsigma.toList ++
        d.p_lin.toList ++ d.p_nl.toList).map some := by
  simp only [ccl_data_free, spline_piece, accel_piece, spline2d_piece, List.map_append,
    List.map_map]
  rfl

theorem data_free_not_free (d : ccl_data) : ∀ c ∈ ccl_data_free d, c.isFree = false := by
  intro c hc
  simp only [ccl_data_free, spline_piece, accel_piece, spline2d_piece, List.mem_append,
    List.mem_map] at hc
  rcases hc with ((((((((( ⟨a, -, rfl⟩ | ⟨a, -, rfl⟩) | ⟨a, -, rfl⟩) | ⟨a, -, rfl⟩) |
    ⟨a, -, rfl⟩) | ⟨a, -, rfl⟩) | ⟨a, -, rfl⟩) | ⟨a, -, rfl⟩) | ⟨a, -, rfl⟩) | ⟨a, -, rfl⟩) <;>
    rfl

theorem handles_eq (d : ccl_data) :
    d.handles =
      (d.chi.toList ++ d.growth.toList ++ d.fgrowth.toList ++ d.accelerator.toList ++
        d.accelerator_achi.toList ++ d.E.toList ++ d.achi.toList ++ d.logsigma.toList ++
        d.p_lin.toList ++ d.p_nl.toList) ++ (d.accelerator_m.toList ++ d.nu_pspace_int.toList) := by
  simp [ccl_data.handles, ccl_data.slots, reduceOption_cons_toList]

/-- C7 (the defect). `ccl_data_free` never looks at the slots `accelerator_m` and
`nu_pspace_int`: the calls it makes are the same whatever they hold. On a
cosmology holding the handles 7 and 8 in these two slots,
`ccl_cosmology_free` releases the object itself and nothing else. -/
theorem ccl_cosmology_free_leaks_two_slots :
    (∀ (d : ccl_data) (x y : Ptr),
      ccl_data_free { d with accelerator_m := x, nu_pspace_int := y } = ccl_data_free d) ∧
    sample_leaky.data.handles = [7, 8] ∧
    ccl_cosmology_free 1 sample_leaky = [FreeCall.free (some 1)] := by
  refine ⟨fun d x y => rfl, by decide, by decide⟩

/-- C8. No double free: when the non-null slots of the cache hold pairwise
distinct handles, `ccl_cosmology_free` passes no address twice to the
deallocators of cache objects, passes no null pointer, releases only handles
held by the cache, and calls `free` exactly once, on the object itself, as its
last call. On the empty cache made by `ccl_cosmology_create` the only call is
that `free`. -/
theorem ccl_cosmology_free_no_double_free {ccl_configuration : Type} (cosmo : Nat)
    (obj u : ccl_cosmology ccl_configuration) (params : ccl_parameters)
    (config : ccl_configuration) (hd : obj.data.handles.Nodup) :
    (((ccl_cosmology_free cosmo obj).filter (fun c => !c.isFree)).map FreeCall.arg).Nodup ∧
    (∀ c ∈ ccl_cosmology_free cosmo obj, c.arg ≠ none) ∧
    (∀ c ∈ ccl_cosmology_free cosmo obj, c.isFree = false →
      ∃ a ∈ obj.data.handles, c.arg = some a) ∧
    (ccl_cosmology_free cosmo obj).filter FreeCall.isFree = [FreeCall.free (some cosmo)] ∧
    (ccl_cosmology_free cosmo obj).getLast? = some (FreeCall.free (some cosmo)) ∧
    ccl_cosmology_free cosmo (ccl_cosmology_create u params config) =
      [FreeCall.free (some cosmo)] := by
  have hnf := data_free_not_free obj.data
  have hargs := data_free_args obj.data
  have hmem : ∀ c ∈ ccl_data_free obj.data, ∃ a ∈ obj.data.handles, c.arg = some a := by
    intro c hc
    have : c.arg ∈ (ccl_data_free obj.data).map FreeCall.arg := List.mem_map_of_mem _ hc
    rw [hargs, List.mem_map] at this
    obtain ⟨a, ha, hac⟩ := this
    exact ⟨a, by rw [handles_eq]; exact List.mem_append_left _ ha, hac.symm⟩
  have hf1 : (ccl_data_free obj.data).filter (fun c => !c.isFree) = ccl_data_free obj.data :=
    List.filter_eq_self.2 (fun c hc => by simp [hnf c hc])
  have hf2 : (ccl_data_free obj.data).filter FreeCall.isFree = [] :=
    List.filter_eq_nil_iff.2 (fun c hc => by simp [hnf c hc])
  refine ⟨?_, ?_, ?_, ?_, ?_, rfl⟩
  · simp only [ccl_cosmology_free, List.filter_append, hf1]
    simp only [List.filter_cons, FreeCall.isFree, Bool.not_true, List.filter_nil,
      List.append_nil, Bool.false_eq_true, if_false]
    rw [hargs]
    rw [handles_eq] at hd
    exact (List.Nodup.of_append_left hd).map (Option.some_injective _)
  · intro c hc
    simp only [ccl_cosmology_free, List.mem_append, List.mem_singleton] at hc
    rcases hc with hc | rfl
    · obtain ⟨a, -, hac⟩ := hmem c hc
      simp [hac]
    · simp [FreeCall.arg]
  · intro c hc hcf
    simp only [ccl_cosmology_free, List.mem_append, List.mem_singleton] at hc
    rcases hc with hc | rfl
    · exact hmem c hc
    · simp [FreeCall.isFree] at hcf
  · simp [ccl_cosmology_free, List.filter_append, hf2, FreeCall.isFree]
  · simp [ccl_cosmology_free]

/-- The theorem `ccl_cosmology_free_no_double_free` at a cosmology whose
distance, growth and power caches are populated. -/
theorem ccl_cosmology_free_no_double_free_witness :
    sample_populated.data.handles.Nodup ∧
    (((ccl_cosmology_free 1 sample_populated).filter (fun c => !c.isFree)).map
      FreeCall.arg).Nodup ∧
    (∀ c ∈ ccl_cosmology_free 1 sample_populated, c.arg ≠ none) ∧
    (∀ c ∈ ccl_cosmology_free 1 sample_populated, c.isFree = false →
      ∃ a ∈ sample_populated.data.handles, c.arg = some a) ∧
    (ccl_cosmology_free 1 sample_populated).filter FreeCall.isFree = [FreeCall.free (some 1)] ∧
    (ccl_cosmology_free 1 sample_populated).getLast? = some (FreeCall.free (some 1)) ∧
    ccl_cosmology_free 1 (ccl_cosmology_create sample_cosmology sample_params ()) =
      [FreeCall.free (some 1)] :=
  ⟨by decide,
    ccl_cosmology_free_no_double_free 1 sample_populated sample_cosmology sample_params ()
      (by decide)⟩

/-! ## Convenience constructors (C9) -/

theorem create_indep [FloatArith] (nu : ccl_neutrinos) (u u' : ccl_parameters) (H : Heap)
    (Omega_c Omega_b Omega_k N_nu_rel N_nu_mass mnu w0 wa h A_s n_s : Dbl)
    (nz : Int) (zarr dfarr : Ptr) :
    ccl_parameters_create nu u H Omega_c Omega_b Omega_k N_nu_rel N_nu_mass mnu w0 wa h
        A_s n_s nz zarr dfarr =
    ccl_parameters_create nu u' H Omega_c Omega_b Omega_k N_nu_rel N_nu_mass mnu w0 wa h
        A_s n_s nz zarr dfarr := by
  unfold ccl_parameters_create
  simp [fill_initial_eq, malloc]

theorem neg_one_lit : -Dbl.fin 1.0 = Dbl.fin (-1) := by
  show Dbl.fin (-1.0) = Dbl.fin (-1)
  norm_num

theorem zero_lit : Dbl.fin 0.0 = Dbl.fin 0 := by norm_num

/-- C9. Each convenience constructor returns what `ccl_parameters_create`
returns on its arguments with the remaining parameters defaulted, count -1
and null arrays: the flat variants fix `Omega_k = 0`, the variants without
neutrinos fix `N_nu_rel = N_nu_mass = mnu = 0`, the lcdm variants fix
`w0 = -1` and `wa = 0`, the wcdm variants pass `w0` and fix `wa = 0`, the wacdm
variants pass both. The indeterminate initial contents `u`, `v` of the locals
of the two calls do not matter. Every wrapper returns a record, with
`has_mgrowth = false`. -/
theorem convenience_constructors_eq_create [FloatArith] (nu : ccl_neutrinos) (u v : ccl_parameters)
    (H : Heap) (Omega_c Omega_b Omega_k h A_s n_s N_nu_rel N_nu_mass mnu w0 wa : Dbl) :
    (ccl_parameters_create_flat_lcdm nu u H Omega_c Omega_b h A_s n_s =
      ccl_parameters_create nu v H Omega_c Omega_b (Dbl.fin 0) (Dbl.fin 0) (Dbl.fin 0)
        (Dbl.fin 0) (Dbl.fin (-1)) (Dbl.fin 0) h A_s n_s (-1) none none) ∧
    (ccl_parameters_create_flat_lcdm_nu nu u H Omega_c Omega_b h A_s n_s N_nu_rel N_nu_mass mnu =
      ccl_parameters_create nu v H Omega_c Omega_b (Dbl.fin 0) N_nu_rel N_nu_mass mnu
        (Dbl.fin (-1)) (Dbl.fin 0) h A_s n_s (-1) none none) ∧
    (ccl_parameters_create_lcdm nu u H Omega_c Omega_b Omega_k h A_s n_s =
      ccl_parameters_create nu v H Omega_c Omega_b Omega_k (Dbl.fin 0) (Dbl.fin 0)
        (Dbl.fin 0) (Dbl.fin (-1)) (Dbl.fin 0) h A_s n_s (-1) none none) ∧
    (ccl_parameters_create_lcdm_nu nu u H Omega_c Omega_b Omega_k h A_s n_s N_nu_rel N_nu_mass
        mnu =
      ccl_parameters_create nu v H Omega_c Omega_b Omega_k N_nu_rel N_nu_mass mnu
        (Dbl.fin (-1)) (Dbl.fin 0) h A_s n_s (-1) none none) ∧
    (ccl_parameters_create_flat_wcdm nu u H Omega_c Omega_b w0 h A_s n_s =
      ccl_parameters_create nu v H Omega_c Omega_b (Dbl.fin 0) (Dbl.fin 0) (Dbl.fin 0)
        (Dbl.fin 0) w0 (Dbl.fin 0) h A_s n_s (-1) none none) ∧
    (ccl_parameters_create_flat_wcdm_nu nu u H Omega_c Omega_b w0 h A_s n_s N_nu_rel N_nu_mass
        mnu =
      ccl_parameters_create nu v H Omega_c Omega_b (Dbl.fin 0) N_nu_rel N_nu_mass mnu
        w0 (Dbl.fin 0) h A_s n_s (-1) none none) ∧
    (ccl_parameters_create_flat_wacdm nu u H Omega_c Omega_b w0 wa h A_s n_s =
      ccl_parameters_create nu v H Omega_c Omega_b (Dbl.fin 0) (Dbl.fin 0) (Dbl.fin 0)
        (Dbl.fin 0) w0 wa h A_s n_s (-1) none none) ∧
    (ccl_parameters_create_flat_wacdm_nu nu u H Omega_c Omega_b w0 wa h A_s n_s N_nu_rel
        N_nu_mass mnu =
      ccl_parameters_create nu v H Omega_c Omega_b (Dbl.fin 0) N_nu_rel N_nu_mass mnu
        w0 wa h A_s n_s (-1) none none) ∧
    (ccl_parameters_create_flat_lcdm nu u H Omega_c Omega_b h A_s n_s).map
      (fun x => x.1.has_mgrowth) = some false ∧
    (ccl_parameters_create_flat_lcdm_nu nu u H Omega_c Omega_b h A_s n_s N_nu_rel N_nu_mass
      mnu).map (fun x => x.1.has_mgrowth) = some false ∧
    (ccl_parameters_create_lcdm nu u H Omega_c Omega_b Omega_k h A_s n_s).map
      (fun x => x.1.has_mgrowth) = some false ∧
    (ccl_parameters_create_lcdm_nu nu u H Omega_c Omega_b Omega_k h A_s n_s N_nu_rel N_nu_mass
      mnu).map (fun x => x.1.has_mgrowth) = some false ∧
    (ccl_parameters_create_flat_wcdm nu u H Omega_c Omega_b w0 h A_s n_s).map
      (fun x => x.1.has_mgrowth) = some false ∧
    (ccl_parameters_create_flat_wcdm_nu nu u H Omega_c Omega_b w0 h A_s n_s N_nu_rel N_nu_mass
      mnu).map (fun x => x.1.has_mgrowth) = some false ∧
    (ccl_parameters_create_flat_wacdm nu u H Omega_c Omega_b w0 wa h A_s n_s).map
      (fun x => x.1.has_mgrowth) = some false ∧
    (ccl_parameters_create_flat_wacdm_nu nu u H Omega_c Omega_b w0 wa h A_s n_s N_nu_rel
      N_nu_mass mnu).map (fun x => x.1.has_mgrowth) = some false := by
  have key : ∀ (a b c d e f g i j k l : Dbl),
      (ccl_parameters_create nu u H a b c d e f g i j k l (-1) none none).map
        (fun x => x.1.has_mgrowth) = some false := by
    intro a b c d e f g i j k l
    obtain ⟨r, hr, hm, -⟩ := create_nonpos nu u H a b c d e f g i j k l (-1) none none
      (by decide)
    rw [hr]
    simp [hm]
  refine ⟨?_, ?_, ?_, ?_, ?_, ?_, ?_, ?_, key _ _ _ _ _ _ _ _ _ _ _, key _ _ _ _ _ _ _ _ _ _ _,
    key _ _ _ _ _ _ _ _ _ _ _, key _ _ _ _ _ _ _ _ _ _ _, key _ _ _ _ _ _ _ _ _ _ _,
    key _ _ _ _ _ _ _ _ _ _ _, key _ _ _ _ _ _ _ _ _ _ _, key _ _ _ _ _ _ _ _ _ _ _⟩
  · rw [← create_indep nu u v]
    simp only [ccl_parameters_create_flat_lcdm, neg_one_lit, zero_lit]
  · rw [← create_indep nu u v]
    simp only [ccl_parameters_create_flat_lcdm_nu, neg_one_lit, zero_lit]
  · rw [← create_indep nu u v]
    simp only [ccl_parameters_create_lcdm, neg_one_lit, zero_lit]
  · rw [← create_indep nu u v]
    simp only [ccl_parameters_create_lcdm_nu, neg_one_lit, zero_lit]
  · rw [← create_indep nu u v]
    simp only [ccl_parameters_create_flat_wcdm, neg_one_lit, zero_lit]
  · rw [← create_indep nu u v]
    simp only [ccl_parameters_create_flat_wcdm_nu, neg_one_lit, zero_lit]
  · rw [← create_indep nu u v]
    simp only [ccl_parameters_create_flat_wacdm, neg_one_lit, zero_lit]
  · rw [← create_indep nu u v]
    simp only [ccl_parameters_create_flat_wacdm_nu, neg_one_lit, zero_lit]

end CCL
